import Mathlib

/-!
Verification of the repository's in-memory persister
(`src/persisters/memory/MemoryPersister.ts`) and Postgres select query builder
(`src/unnamed/part_000`, class `PgSelectQueryBuilder`).

The TypeScript code is shallowly embedded: entities are JSON-like immutable
values, the persister's mutable `_data` map and the module-global `ID_SEQUENCER`
counter are threaded explicitly through each operation, and thrown `TypeError`s
become `Except.error` results.  Operations that mutate state before throwing
return both the mutated state and the error, mirroring that a TypeScript
exception leaves earlier mutations in place.
-/

/-- JSON-like runtime values held by entity properties.  `vNull` stands for
both `null` and `undefined` (the modelled code paths never distinguish them:
every use is guarded by a truthiness test). -/
inductive Value where
  | vNull : Value
  | vStr (s : String) : Value
  | vNum (n : Int) : Value
  | vObj (fields : List (String × Value)) : Value
  | vList (items : List Value) : Value
deriving Repr

/-- JavaScript truthiness of a value (`if (x)`); `NaN` is outside the model. -/
def truthy : Value → Bool
  | .vNull => false
  | .vStr s => !(s == "")
  | .vNum n => !(n == 0)
  | .vObj _ => true
  | .vList _ => true

/-- Strict equality (`===`) as used on id values in the persister.  For
primitives it is value equality; two object references of distinct provenance
are never `===`, and every comparison in the modelled code paths compares
values of distinct provenance, so object operands compare unequal. -/
def strictEq : Value → Value → Bool
  | .vNull, .vNull => true
  | .vStr a, .vStr b => a == b
  | .vNum a, .vNum b => a == b
  | _, _ => false

/-- Whether a value is a primitive string or number (the declared
`EntityIdTypes` of the source, `string | number`). -/
def isPrim : Value → Bool
  | .vStr _ => true
  | .vNum _ => true
  | _ => false

/-- Whether an object owns a property of the given name (the `has` helper
imported from `core/functions/has`; on non-objects it is `false`). -/
def hasProp : Value → String → Bool
  | .vObj fs, p => fs.any (fun kv => kv.1 == p)
  | _, _ => false

/-- Property read `(obj as any)[p]`, `none` when absent or not an object. -/
def getProp : Value → String → Option Value
  | .vObj fs, p => (fs.find? (fun kv => kv.1 == p)).map (fun kv => kv.2)
  | _, _ => none

/-- Property read defaulting to `undefined` (modelled as `vNull`). -/
def getPropD (v : Value) (p : String) : Value :=
  (getProp v p).getD .vNull

/-- Replace the binding of a property in a field list, appending a fresh
binding at the end when absent (JavaScript object key insertion order). -/
def setField : List (String × Value) → String → Value → List (String × Value)
  | [], p, v => [(p, v)]
  | (k, w) :: rest, p, v =>
    if k == p then (k, v) :: rest else (k, w) :: setField rest p v

/-- Property write `(obj as any)[p] = v`; a no-op on non-objects (the modelled
code only writes properties of entity objects). -/
def setProp : Value → String → Value → Value
  | .vObj fs, p, v => .vObj (setField fs p v)
  | w, _, _ => w

/-- Decimal digits of `n`, most significant first; the fuel argument (always
instantiated with `n + 1`, which suffices since `n / 10 < n` for `n ≥ 10`)
keeps the recursion structural so that the kernel can evaluate it. -/
def natDecDigitsAux (fuel : Nat) (n : Nat) : List Char :=
  match fuel with
  | 0 => []
  | fuel + 1 =>
    if n < 10 then [Char.ofNat (48 + n)]
    else natDecDigitsAux fuel (n / 10) ++ [Char.ofNat (48 + n % 10)]

/-- Decimal rendering of a natural number, the semantics of the template
literal interpolation of a nonnegative JavaScript number. -/
def natToDec (n : Nat) : String := String.mk (natDecDigitsAux (n + 1) n)

/-- One declared column: property name on the entity and column name in the
table (`EntityField` of `src`). -/
structure EntityField where
  propertyName : String
  columnName : String
deriving DecidableEq, Repr

/-- A one-to-many relation descriptor (`EntityRelationOneToMany` of `src`);
`mappedBy` or `mappedTable` may be absent, modelled as the empty string, which
is exactly what the source's truthiness guards test for. -/
structure EntityRelationOneToMany where
  propertyName : String
  mappedBy : String
  mappedTable : String
deriving DecidableEq, Repr

/-- A many-to-one relation descriptor (`EntityRelationManyToOne` of `src`). -/
structure EntityRelationManyToOne where
  propertyName : String
  mappedTable : String
deriving DecidableEq, Repr

/-- Static description of one entity type (`EntityMetadata` of `src`). -/
structure EntityMetadata where
  tableName : String
  idPropertyName : String
  fields : List EntityField
  oneToManyRelations : List EntityRelationOneToMany
  manyToOneRelations : List EntityRelationManyToOne
deriving Repr

/-- The configured id representation mode (`MemoryIdType` of `src`). -/
inductive MemoryIdType where
  | STRING : MemoryIdType
  | NUMBER : MemoryIdType
deriving DecidableEq, Repr

/-- One stored row: the id captured at insert time plus the entity value
(`MemoryItem` of `src`; `value` is replaced wholesale on update). -/
structure MemoryItem where
  id : Value
  value : Value
deriving Repr

/-- An ordered table of stored rows (`MemoryTable` of `src`). -/
structure MemoryTable where
  items : List MemoryItem
deriving Repr

/-- Mirrors `createMemoryItem` of `src`. -/
def createMemoryItem (id : Value) (value : Value) : MemoryItem := ⟨id, value⟩

/-- Mirrors `createMemoryTable()` of `src` (no argument form). -/
def createMemoryTable : MemoryTable := ⟨[]⟩

/-- The mutable state of one `MemoryPersister` instance: the configured id
mode, the `_data` table map (an association list keyed by table name, in key
insertion order like a JavaScript object), and the metadata manager's registry
keyed by table name.  The process-global `ID_SEQUENCER` counter is not part of
this structure; it is threaded separately through the operations because it is
shared by all instances. -/
structure MemoryPersister where
  idType : MemoryIdType
  data : List (String × MemoryTable)
  metadataByTable : List (String × EntityMetadata)
deriving Repr

/-- Mirrors `new MemoryPersister(idType)`: empty table map, empty registry. -/
def MemoryPersister.new (idType : MemoryIdType) : MemoryPersister :=
  ⟨idType, [], []⟩

/-- Whether `_data` owns a table of this name (`has(this._data, tableName)`). -/
def MemoryPersister.hasTable (st : MemoryPersister) (t : String) : Bool :=
  (st.data.find? (fun kv => kv.1 == t)).isSome

/-- Lookup of `this._data[tableName]`. -/
def MemoryPersister.lookupTable (st : MemoryPersister) (t : String) :
    Option MemoryTable :=
  (st.data.find? (fun kv => kv.1 == t)).map (fun kv => kv.2)

/-- Items of a table, the empty list when the table does not exist (every read
in the source guards a missing table to the empty result). -/
def MemoryPersister.tableItems (st : MemoryPersister) (t : String) :
    List MemoryItem :=
  ((st.lookupTable t).getD createMemoryTable).items

/-- Replace the items of an existing table, or create the table with them
(JavaScript object assignment `this._data[tableName] = ...`: an existing key
keeps its position, a new key is appended). -/
def MemoryPersister.setTableItems (st : MemoryPersister) (t : String)
    (items : List MemoryItem) : MemoryPersister :=
  if st.hasTable t then
    { st with data := st.data.map (fun kv => if kv.1 == t then (kv.1, ⟨items⟩) else kv) }
  else
    { st with data := st.data ++ [(t, ⟨items⟩)] }

/-- Mirrors `if (!has(this._data, tableName)) this._data[tableName] =
createMemoryTable()`. -/
def MemoryPersister.ensureTable (st : MemoryPersister) (t : String) :
    MemoryPersister :=
  if st.hasTable t then st else { st with data := st.data ++ [(t, createMemoryTable)] }

/-- Modelled from the spec: `PersisterMetadataManagerImpl` is not under `src/`;
per section 4.1 of the spec, `setupEntityMetadata(metadata)` "registers or
overwrites the record for `metadata.tableName`" (last write wins). -/
def MemoryPersister.setupEntityMetadata (st : MemoryPersister)
    (metadata : EntityMetadata) : MemoryPersister :=
  if (st.metadataByTable.find? (fun kv => kv.1 == metadata.tableName)).isSome then
    let updated := st.metadataByTable.map
      (fun kv => if kv.1 == metadata.tableName then (kv.1, metadata) else kv)
    { st with metadataByTable := updated }
  else
    { st with metadataByTable := st.metadataByTable ++ [(metadata.tableName, metadata)] }

/-- Modelled from the spec: the metadata manager's
`getMetadataByTable(tableName)` returns the registered record or a not-found
result (spec section 4.1). -/
def MemoryPersister.getMetadataByTable (st : MemoryPersister) (t : String) :
    Option EntityMetadata :=
  (st.metadataByTable.find? (fun kv => kv.1 == t)).map (fun kv => kv.2)

/-- Modelled from the spec: `EntityUtils.getPropertyName(columnName, fields)`
is not under `src/`; per spec section 4.4 it maps "that column name back to a
property name" within a field list. -/
def getPropertyName (columnName : String) (fields : List EntityField) :
    Option String :=
  (fields.find? (fun f => f.columnName == columnName)).map (fun f => f.propertyName)

/-- One iteration of the `forEach` loop of
`MemoryPersister._populateOneToManyRelations` (src lines 429-477).  `entityId`
is the value read from the entity's id property before the loop.  When the
mapped table's metadata has no field whose property name equals `mappedBy`,
the source's `if (joinColumn)` has no else branch: the relation is skipped and
the entity is returned unchanged. -/
def oneToManyStep (st : MemoryPersister) (metadata : EntityMetadata)
    (entityId : Option Value) (entity : Value)
    (rel : EntityRelationOneToMany) : Except String Value :=
  if !(rel.mappedTable == "") && !(rel.mappedBy == "") then
    match st.getMetadataByTable rel.mappedTable with
    | some mappedToMetadata =>
      match mappedToMetadata.fields.find? (fun f => f.propertyName == rel.mappedBy) with
      | some joinColumn =>
        let joinPropertyName := getPropertyName joinColumn.columnName metadata.fields
        let linkedEntities := (st.tableItems rel.mappedTable).filter
          (fun relatedItem =>
            let relatedEntity := relatedItem.value
            let relatedEntityProperty :=
              if hasProp relatedEntity rel.mappedBy
              then getPropD relatedEntity rel.mappedBy else .vNull
            if truthy relatedEntityProperty then
              let innerId :=
                match joinPropertyName with
                | some jp =>
                  if hasProp relatedEntityProperty jp
                  then getPropD relatedEntityProperty jp else .vNull
                | none => .vNull
              truthy innerId &&
                (match entityId with
                 | some eid => strictEq innerId eid
                 | none => false)
            else false)
        .ok (setProp entity rel.propertyName (.vList (linkedEntities.map (fun it => it.value))))
      | none => .ok entity
    | none => .error "Could not find metadata for linked table"
  else .error "No link to table exists to populate property"

/-- The `forEach` loop over the declared one-to-many relations, with a thrown
error aborting the remaining iterations. -/
def populateOneToManyList (st : MemoryPersister) (metadata : EntityMetadata)
    (entityId : Option Value) :
    Value → List EntityRelationOneToMany → Except String Value
  | entity, [] => .ok entity
  | entity, rel :: rest =>
    match oneToManyStep st metadata entityId entity rel with
    | .ok e' => populateOneToManyList st metadata entityId e' rest
    | .error e => .error e

/-- Mirrors `MemoryPersister._populateOneToManyRelations` (src lines 415-481):
clone the entity (identity on immutable values), read the id once, then run
every declared one-to-many relation in order. -/
def MemoryPersister.populateOneToManyRelations (st : MemoryPersister)
    (entity : Value) (metadata : EntityMetadata) : Except String Value :=
  let entityId : Option Value :=
    if hasProp entity metadata.idPropertyName
    then some (getPropD entity metadata.idPropertyName) else none
  populateOneToManyList st metadata entityId entity metadata.oneToManyRelations

/-- One iteration of the `forEach` loop of
`MemoryPersister._populateManyToOneRelations` (src lines 501-555).  When the
entity's own metadata has no field whose property name equals the relation's
`propertyName`, the source's `if (joinColumn)` has no else branch: the
relation is skipped and the entity is returned unchanged.  On success the
relation property is replaced by the stored related entity with only its
one-to-many relations populated. -/
def manyToOneStep (st : MemoryPersister) (metadata : EntityMetadata)
    (entity : Value) (rel : EntityRelationManyToOne) : Except String Value :=
  match metadata.fields.find? (fun f => f.propertyName == rel.propertyName) with
  | none => .ok entity
  | some joinColumn =>
    if rel.mappedTable == "" then
      .error "No link to table exists to populate property"
    else
      match st.getMetadataByTable rel.mappedTable with
      | none => .error "Could not find metadata for linked table"
      | some mappedToMetadata =>
        let relatedEntity := getPropD entity rel.propertyName
        if !(truthy relatedEntity) then
          .error "Could not find related entity by property"
        else
          let joinPropertyName := getPropertyName joinColumn.columnName mappedToMetadata.fields
          let relatedId :=
            match joinPropertyName with
            | some jp =>
              if hasProp relatedEntity jp then getPropD relatedEntity jp else .vNull
            | none => .vNull
          if !(truthy relatedId) then
            .error "Could not find related entity id by property"
          else
            match (st.tableItems mappedToMetadata.tableName).find?
                (fun it => strictEq it.id relatedId) with
            | none => .error "Could not find related entity by id"
            | some storedRelatedItem =>
              match st.populateOneToManyRelations storedRelatedItem.value mappedToMetadata with
              | .ok populated => .ok (setProp entity rel.propertyName populated)
              | .error e => .error e

/-- The `forEach` loop over the declared many-to-one relations. -/
def populateManyToOneList (st : MemoryPersister) (metadata : EntityMetadata) :
    Value → List EntityRelationManyToOne → Except String Value
  | entity, [] => .ok entity
  | entity, rel :: rest =>
    match manyToOneStep st metadata entity rel with
    | .ok e' => populateManyToOneList st metadata e' rest
    | .error e => .error e

/-- Mirrors `MemoryPersister._populateManyToOneRelations` (src lines 492-559). -/
def MemoryPersister.populateManyToOneRelations (st : MemoryPersister)
    (entity : Value) (metadata : EntityMetadata) : Except String Value :=
  populateManyToOneList st metadata entity metadata.manyToOneRelations

/-- Mirrors `MemoryPersister._populateRelations` (src lines 399-404):
one-to-many population first, then many-to-one population. -/
def MemoryPersister.populateRelations (st : MemoryPersister) (entity : Value)
    (metadata : EntityMetadata) : Except String Value :=
  match st.populateOneToManyRelations entity metadata with
  | .ok e' => st.populateManyToOneRelations e' metadata
  | .error e => .error e

/-- The id mode formatting of a freshly drawn sequencer value (src line 260):
`this._idType === MemoryIdType.STRING ? `${newId}` : newId`. -/
def formatNewId (idType : MemoryIdType) (n : Nat) : Value :=
  match idType with
  | .STRING => .vStr (natToDec n)
  | .NUMBER => .vNum (Int.ofNat n)

/-- The id assignment step of one batch item (src lines 258-261): an entity
without a populated id property draws `++ID_SEQUENCER` and stores it,
formatted per the id mode, at the id property. -/
def insertAssign (idType : MemoryIdType) (idPropertyName : String) (seq : Nat)
    (item : Value) : Nat × Value :=
  if !(hasProp item idPropertyName && truthy (getPropD item idPropertyName)) then
    (seq + 1, setProp item idPropertyName (formatNewId idType (seq + 1)))
  else (seq, item)

/-- The `map` of src lines 255-272 building the new `MemoryItem`s: each batch
item gets an id (pre-set or freshly assigned), is rejected when the id is
falsy or already among `allIds` (the snapshot of stored ids plus the ids of
earlier batch items), and otherwise appends its id to `allIds`.  A thrown
`TypeError` aborts the remaining iterations; the sequencer increments made so
far stay in place. -/
def insertNewItems (idType : MemoryIdType) (idPropertyName : String) :
    Nat → List Value → List Value → Nat × Except String (List MemoryItem)
  | seq, _, [] => (seq, .ok [])
  | seq, allIds, item :: rest =>
    let assigned := insertAssign idType idPropertyName seq item
    let id := getPropD assigned.2 idPropertyName
    if !(truthy id) then
      (assigned.1, .error "Entity cannot be saved with id as given")
    else if allIds.any (fun x => strictEq x id) then
      (assigned.1, .error "Entity already stored with id")
    else
      match insertNewItems idType idPropertyName assigned.1 (allIds ++ [id]) rest with
      | (seq', .ok items) => (seq', .ok (createMemoryItem id assigned.2 :: items))
      | (seq', .error e) => (seq', .error e)

/-- Mirrors `MemoryPersister.insert` (src lines 238-286) for a batch of
entities (`isArray(entity) ? entity : [entity]` hands a single entity over as
a one-element batch).  `seq` is the process-global `ID_SEQUENCER` before the
call; the returned `Nat` is its value after the call.  The input entities are
cloned (identity on immutable values), the target table is created when
missing, the new items are validated against a snapshot of the stored ids and
only then appended, and the relation-populated copy of the first new item is
returned. -/
def MemoryPersister.insert (seq : Nat) (st : MemoryPersister)
    (entities : List Value) (metadata : EntityMetadata) :
    Nat × MemoryPersister × Except String Value :=
  let tableName := metadata.tableName
  let idPropertyName := metadata.idPropertyName
  let st := st.ensureTable tableName
  let allIds := (st.tableItems tableName).map (fun it => it.id)
  match insertNewItems st.idType idPropertyName seq allIds entities with
  | (seq', .error e) => (seq', st, .error e)
  | (seq', .ok newItems) =>
    let st := st.setTableItems tableName (st.tableItems tableName ++ newItems)
    match newItems.head? with
    | none => (seq', st, .error "Could not add items")
    | some firstItem =>
      match st.populateRelations firstItem.value metadata with
      | .ok v => (seq', st, .ok v)
      | .error e => (seq', st, .error e)

/-- Replace the value of the first stored item carrying this id (the source's
`savedItem.value = entity` after a `find`). -/
def replaceFirstItem : List MemoryItem → Value → Value → List MemoryItem
  | [], _, _ => []
  | it :: rest, id, v =>
    if strictEq it.id id then createMemoryItem it.id v :: rest
    else it :: replaceFirstItem rest id v

/-- Mirrors `MemoryPersister.update` (src lines 288-311): clone, create the
table when missing, reject a missing or falsy id, then replace the first
stored item with this id in place, or append a new item when none exists. -/
def MemoryPersister.update (st : MemoryPersister) (entity : Value)
    (metadata : EntityMetadata) : MemoryPersister × Except String Value :=
  let tableName := metadata.tableName
  let st := st.ensureTable tableName
  let idPropertyName := metadata.idPropertyName
  if !(!(idPropertyName == "") && hasProp entity idPropertyName) then
    (st, .error "The entity did not have a property for id")
  else
    let id := getPropD entity idPropertyName
    if !(truthy id) then
      (st, .error "The entity did not have a valid entity id at property")
    else
      let items := st.tableItems tableName
      let items' :=
        if (items.find? (fun it => strictEq it.id id)).isSome then
          replaceFirstItem items id entity
        else items ++ [createMemoryItem id entity]
      let st := st.setTableItems tableName items'
      (st, st.populateRelations entity metadata)

/-- Mirrors `MemoryPersister.findById` (src lines 213-223): linear scan by
`===` on the id, relation population of a clone of the found value. -/
def MemoryPersister.findById (st : MemoryPersister) (id : Value)
    (metadata : EntityMetadata) : Except String (Option Value) :=
  match (st.tableItems metadata.tableName).find? (fun it => strictEq it.id id) with
  | none => .ok none
  | some item =>
    match st.populateRelations item.value metadata with
    | .ok v => .ok (some v)
    | .error e => .error e

/-- Mirrors `MemoryPersister.findByProperty` (src lines 225-236). -/
def MemoryPersister.findByProperty (st : MemoryPersister) (property : String)
    (value : Value) (metadata : EntityMetadata) : Except String (Option Value) :=
  match (st.tableItems metadata.tableName).find?
      (fun it => hasProp it.value property && strictEq (getPropD it.value property) value) with
  | none => .ok none
  | some item =>
    match st.populateRelations item.value metadata with
    | .ok v => .ok (some v)
    | .error e => .error e

/-- Fold relation population over a prepared item list
(`_populateRelationsToList` over `_prepareItemList`, clones being identity). -/
def populateList (st : MemoryPersister) (metadata : EntityMetadata) :
    List MemoryItem → Except String (List Value)
  | [] => .ok []
  | item :: rest =>
    match st.populateRelations item.value metadata with
    | .ok v =>
      match populateList st metadata rest with
      | .ok vs => .ok (v :: vs)
      | .error e => .error e
    | .error e => .error e

/-- Mirrors `MemoryPersister.findAll` (src lines 172-178). -/
def MemoryPersister.findAll (st : MemoryPersister) (metadata : EntityMetadata) :
    Except String (List Value) :=
  populateList st metadata (st.tableItems metadata.tableName)

/-- Mirrors `MemoryPersister.findAllById` (src lines 180-191). -/
def MemoryPersister.findAllById (st : MemoryPersister) (ids : List Value)
    (metadata : EntityMetadata) : Except String (List Value) :=
  populateList st metadata
    ((st.tableItems metadata.tableName).filter
      (fun it => ids.any (fun i => strictEq i it.id)))

/-- Mirrors `MemoryPersister.findAllByProperty` (src lines 193-205). -/
def MemoryPersister.findAllByProperty (st : MemoryPersister) (property : String)
    (value : Value) (metadata : EntityMetadata) : Except String (List Value) :=
  populateList st metadata
    ((st.tableItems metadata.tableName).filter
      (fun it => hasProp it.value property && strictEq (getPropD it.value property) value))

/-- Mirrors `MemoryPersister.count` (src lines 98-104). -/
def MemoryPersister.count (st : MemoryPersister) (metadata : EntityMetadata) : Nat :=
  (st.tableItems metadata.tableName).length

/-- Mirrors `MemoryPersister.countByProperty` (src lines 106-117). -/
def MemoryPersister.countByProperty (st : MemoryPersister) (property : String)
    (value : Value) (metadata : EntityMetadata) : Nat :=
  ((st.tableItems metadata.tableName).filter
    (fun it => hasProp it.value property && strictEq (getPropD it.value property) value)).length

/-- Mirrors `MemoryPersister.existsByProperty` (src lines 159-170). -/
def MemoryPersister.existsByProperty (st : MemoryPersister) (property : String)
    (value : Value) (metadata : EntityMetadata) : Bool :=
  (st.tableItems metadata.tableName).any
    (fun it => hasProp it.value property && strictEq (getPropD it.value property) value)

/-- Mirrors `MemoryPersister.deleteAll` (src lines 119-125): drop the table
entry itself. -/
def MemoryPersister.deleteAll (st : MemoryPersister) (metadata : EntityMetadata) :
    MemoryPersister :=
  if st.hasTable metadata.tableName then
    { st with data := st.data.filter (fun kv => !(kv.1 == metadata.tableName)) }
  else st

/-- Mirrors `MemoryPersister.deleteAllById` (src lines 127-137). -/
def MemoryPersister.deleteAllById (st : MemoryPersister) (ids : List Value)
    (metadata : EntityMetadata) : MemoryPersister :=
  if st.hasTable metadata.tableName then
    st.setTableItems metadata.tableName
      ((st.tableItems metadata.tableName).filter
        (fun it => !(ids.any (fun i => strictEq i it.id))))
  else st

/-- Mirrors `MemoryPersister.deleteAllByProperty` (src lines 139-150). -/
def MemoryPersister.deleteAllByProperty (st : MemoryPersister) (property : String)
    (value : Value) (metadata : EntityMetadata) : MemoryPersister :=
  if st.hasTable metadata.tableName then
    st.setTableItems metadata.tableName
      ((st.tableItems metadata.tableName).filter
        (fun it =>
          if hasProp it.value property
          then !(strictEq (getPropD it.value property) value) else true))
  else st

/-- Mirrors `MemoryPersister.deleteById` (src lines 152-157). -/
def MemoryPersister.deleteById (st : MemoryPersister) (id : Value)
    (metadata : EntityMetadata) : MemoryPersister :=
  st.deleteAllById [id] metadata

/-- Modelled from the spec: `PgQueryUtils.quoteTableName` is not under `src/`;
per the spec, identifiers are double-quoted through a shared quoting utility. -/
def quoteTableName (t : String) : String := "\"" ++ t ++ "\""

/-- Modelled from the spec: `PgQueryUtils.quoteColumnName`, double-quoting. -/
def quoteColumnName (c : String) : String := "\"" ++ c ++ "\""

/-- Modelled from the spec: `PgQueryUtils.quoteTableAndColumn`, a quoted
`table.column` pair. -/
def quoteTableAndColumn (t c : String) : String :=
  quoteTableName t ++ "." ++ quoteColumnName c

/-- The `QueryBuilder` interface as consumed by `PgSelectQueryBuilder`
(spec section 6): a sub-builder or predicate builder exposing its rendered
query string and its ordered value factories.  A factory `() => any` is a pure
producer, so it is modelled by the value it produces; the model treats the
embedded builder as immutable after attachment, hence its deferred rendering
coincides with this snapshot. -/
structure QueryBuilderModel (α : Type) where
  queryString : String
  valueFactories : List α
deriving Repr

/-- JavaScript truthiness of an optional string field (`undefined` and the
empty string are both falsy). -/
def optTruthy : Option String → Bool
  | some s => !(s == "")
  | none => false

/-- State of `PgSelectQueryBuilder` (`src/unnamed/part_000`).  A field query
is a deferred renderer that may fail at build time, modelled as the
`Except` it produces then; `tablePfx` is the source's `_tablePrefix` (renamed
here).  `_leftJoinValues` is initialized empty and never appended to by any
method of the class; it is kept to mirror the source's value concatenation. -/
structure PgSelectQueryBuilder (α : Type) where
  mainIdColumnName : Option String
  mainTableName : Option String
  tablePfx : String
  fieldQueries : List (Except String String)
  fieldValues : List α
  leftJoinQueries : List String
  leftJoinValues : List α
  whereB : Option (QueryBuilderModel α)
deriving Repr

/-- Mirrors the `PgSelectQueryBuilder` constructor. -/
def PgSelectQueryBuilder.new (α : Type) : PgSelectQueryBuilder α :=
  ⟨none, none, "", [], [], [], [], none⟩

/-- Mirrors `setTablePrefix` (stores the prefix string). -/
def PgSelectQueryBuilder.setTablePfx (b : PgSelectQueryBuilder α) (p : String) :
    PgSelectQueryBuilder α :=
  { b with tablePfx := p }

/-- Mirrors `getCompleteTableName`: prefix concatenated before the name. -/
def PgSelectQueryBuilder.getCompleteTableName (b : PgSelectQueryBuilder α)
    (tableName : String) : String :=
  b.tablePfx ++ tableName

/-- Mirrors `setWhereFromQueryBuilder`. -/
def PgSelectQueryBuilder.setWhereFromQueryBuilder (b : PgSelectQueryBuilder α)
    (w : QueryBuilderModel α) : PgSelectQueryBuilder α :=
  { b with whereB := some w }

/-- Mirrors `includeAllColumnsFromTable`: pushes a `table.*` field renderer. -/
def PgSelectQueryBuilder.includeAllColumnsFromTable (b : PgSelectQueryBuilder α)
    (tableName : String) : PgSelectQueryBuilder α :=
  { b with fieldQueries := b.fieldQueries ++ [.ok (quoteTableName tableName ++ ".*")] }

/-- The deferred renderer pushed by `includeColumnFromQueryBuilder` (src lines
55-59): at build time it renders the embedded builder and fails when that
rendering is empty. -/
def renderSubColumn (sub : QueryBuilderModel α) (asColumnName : String) :
    Except String String :=
  if sub.queryString == "" then .error "Query builder failed to create query string"
  else .ok (sub.queryString ++ " AS " ++ quoteColumnName asColumnName)

/-- Mirrors `includeColumnFromQueryBuilder` (src lines 51-66): pushes the
deferred renderer and appends the sub-builder's value factories, in order, to
the field-value list.  The method itself never throws; the empty-rendering
error is raised only when the pushed renderer runs inside `buildQueryString`. -/
def PgSelectQueryBuilder.includeColumnFromQueryBuilder (b : PgSelectQueryBuilder α)
    (sub : QueryBuilderModel α) (asColumnName : String) : PgSelectQueryBuilder α :=
  { b with
    fieldQueries := b.fieldQueries ++ [renderSubColumn sub asColumnName],
    fieldValues := b.fieldValues ++ sub.valueFactories }

/-- Mirrors `includeFormulaByString` (src lines 68-79): rejects an empty
formula or alias at call time, otherwise pushes the rendered column. -/
def PgSelectQueryBuilder.includeFormulaByString (b : PgSelectQueryBuilder α)
    (formula : String) (asColumnName : String) :
    Except String (PgSelectQueryBuilder α) :=
  if formula == "" then .error "includeFormulaByString: formula is required"
  else if asColumnName == "" then .error "includeFormulaByString: column name is required"
  else .ok { b with
    fieldQueries := b.fieldQueries ++ [.ok (formula ++ " AS " ++ quoteColumnName asColumnName)] }

/-- Mirrors `setFromTable`. -/
def PgSelectQueryBuilder.setFromTable (b : PgSelectQueryBuilder α) (t : String) :
    PgSelectQueryBuilder α :=
  { b with mainTableName := some t }

/-- Mirrors `getCompleteFromTable`: fails while no from-table is set,
otherwise prepends the prefix. -/
def PgSelectQueryBuilder.getCompleteFromTable (b : PgSelectQueryBuilder α) :
    Except String String :=
  if optTruthy b.mainTableName then
    .ok (b.getCompleteTableName (b.mainTableName.getD ""))
  else .error "From table has not been initialized yet"

/-- Mirrors `getShortFromTable`. -/
def PgSelectQueryBuilder.getShortFromTable (b : PgSelectQueryBuilder α) :
    Except String String :=
  if optTruthy b.mainTableName then .ok (b.mainTableName.getD "")
  else .error "From table has not been initialized yet"

/-- Mirrors `setGroupByColumn` (stores `_mainIdColumnName`). -/
def PgSelectQueryBuilder.setGroupByColumn (b : PgSelectQueryBuilder α) (c : String) :
    PgSelectQueryBuilder α :=
  { b with mainIdColumnName := some c }

/-- The `LEFT JOIN` clause text pushed by `leftJoinTable` (src line 109). -/
def mkLeftJoin (fromTableName fromColumnName sourceTableName sourceColumnName : String) :
    String :=
  "LEFT JOIN " ++ quoteTableName fromTableName ++ " ON "
    ++ quoteTableAndColumn sourceTableName sourceColumnName ++ " = "
    ++ quoteTableAndColumn fromTableName fromColumnName

/-- Mirrors `leftJoinTable`: pushes the join clause renderer; note that no
value factory is pushed (`_leftJoinValues` stays empty). -/
def PgSelectQueryBuilder.leftJoinTable (b : PgSelectQueryBuilder α)
    (fromTableName fromColumnName sourceTableName sourceColumnName : String) :
    PgSelectQueryBuilder α :=
  { b with leftJoinQueries :=
      b.leftJoinQueries ++ [mkLeftJoin fromTableName fromColumnName sourceTableName sourceColumnName] }

/-- Evaluate the deferred field renderers in order, propagating the first
failure (the `map` of src line 118 runs the thunks left to right and a throw
aborts the rest). -/
def exceptSeq : List (Except String String) → Except String (List String)
  | [] => .ok []
  | .error e :: _ => .error e
  | .ok s :: rest =>
    match exceptSeq rest with
    | .ok ss => .ok (s :: ss)
    | .error e => .error e

/-- Mirrors `buildQueryString` (src lines 117-135): `SELECT` fields, then
`FROM` when a from-table is set, then the join clauses, then `WHERE` when a
predicate is attached, then `GROUP BY` when a group-by column is set — which
throws when no from-table is set, and renders the raw (unprefixed) table name
with the column. -/
def PgSelectQueryBuilder.buildQueryString (b : PgSelectQueryBuilder α) :
    Except String String :=
  match exceptSeq b.fieldQueries with
  | .error e => .error e
  | .ok fieldQueries =>
    let query := "SELECT " ++ String.intercalate ", " fieldQueries
    let query :=
      if optTruthy b.mainTableName then
        query ++ " FROM " ++ quoteTableName (b.mainTableName.getD "")
      else query
    let query :=
      if b.leftJoinQueries.length != 0 then
        query ++ " " ++ String.intercalate " " b.leftJoinQueries
      else query
    let query :=
      match b.whereB with
      | some w => query ++ " WHERE " ++ w.queryString
      | none => query
    if optTruthy b.mainIdColumnName then
      if !(optTruthy b.mainTableName) then .error "No table initialized"
      else
        .ok (query ++ " GROUP BY "
          ++ quoteTableAndColumn (b.mainTableName.getD "") (b.mainIdColumnName.getD ""))
    else .ok query

/-- Mirrors `buildQueryValues` (src lines 137-144): evaluated field values,
then evaluated join values, then the predicate's values. -/
def PgSelectQueryBuilder.buildQueryValues (b : PgSelectQueryBuilder α) : List α :=
  b.fieldValues ++ b.leftJoinValues
    ++ (match b.whereB with
        | some w => w.valueFactories
        | none => [])

/-- Mirrors `getQueryValueFactories` (src lines 146-153): the unevaluated
factories, fields then joins then predicate. -/
def PgSelectQueryBuilder.getQueryValueFactories (b : PgSelectQueryBuilder α) : List α :=
  b.fieldValues ++ b.leftJoinValues
    ++ (match b.whereB with
        | some w => w.valueFactories
        | none => [])

/-- Mirrors `build` (src lines 113-115): the rendered text together with the
evaluated value list; a rendering failure propagates. -/
def PgSelectQueryBuilder.build (b : PgSelectQueryBuilder α) :
    Except String (String × List α) :=
  match b.buildQueryString with
  | .ok s => .ok (s, b.buildQueryValues)
  | .error e => .error e

/-- One state-mutating call on a `PgSelectQueryBuilder`, used to state
order-of-attachment properties over whole call sequences
(`includeFormulaByString` is excluded: it may throw at call time). -/
inductive BuilderOp (α : Type) where
  | setTablePfx (p : String) : BuilderOp α
  | setFromTable (t : String) : BuilderOp α
  | setGroupByColumn (c : String) : BuilderOp α
  | setWhereFromQueryBuilder (w : QueryBuilderModel α) : BuilderOp α
  | includeAllColumnsFromTable (t : String) : BuilderOp α
  | includeColumnFromQueryBuilder (sub : QueryBuilderModel α) (asColumnName : String) : BuilderOp α
  | leftJoinTable (ft fc srcT srcC : String) : BuilderOp α

/-- Run one builder call. -/
def applyOp (b : PgSelectQueryBuilder α) : BuilderOp α → PgSelectQueryBuilder α
  | .setTablePfx p => b.setTablePfx p
  | .setFromTable t => b.setFromTable t
  | .setGroupByColumn c => b.setGroupByColumn c
  | .setWhereFromQueryBuilder w => b.setWhereFromQueryBuilder w
  | .includeAllColumnsFromTable t => b.includeAllColumnsFromTable t
  | .includeColumnFromQueryBuilder sub a => b.includeColumnFromQueryBuilder sub a
  | .leftJoinTable ft fc srcT srcC => b.leftJoinTable ft fc srcT srcC

/-- Run a sequence of builder calls left to right. -/
def applyOps (b : PgSelectQueryBuilder α) : List (BuilderOp α) → PgSelectQueryBuilder α
  | [] => b
  | op :: rest => applyOps (applyOp b op) rest

/-- The value factories one call contributes to the field-value list: only
`includeColumnFromQueryBuilder` appends any. -/
def opFieldValues : BuilderOp α → List α
  | .includeColumnFromQueryBuilder sub _ => sub.valueFactories
  | _ => []

/-- The predicate builder attached after a call sequence: the last
`setWhereFromQueryBuilder` wins. -/
def opsWhere : Option (QueryBuilderModel α) → List (BuilderOp α) → Option (QueryBuilderModel α)
  | acc, [] => acc
  | _, .setWhereFromQueryBuilder w :: rest => opsWhere (some w) rest
  | acc, _ :: rest => opsWhere acc rest

/-!
Reference-level model of the clone discipline.

The value-level model above cannot express the spec's aliasing property
("mutating the returned copy must not affect a subsequent findById call's
result"), because immutable values cannot be mutated.  The definitions below
therefore re-trace `MemoryPersister.insert` (single entity) and
`MemoryPersister.findById` at the level of object references: a heap maps a
reference to the entity value it currently holds, the store keeps references
(exactly as the TypeScript store keeps object references in its
`MemoryItem`s), and `Entity.clone` — modelled from the spec: `Entity.clone`
is not under `src/`; the spec calls it a "deep, value-semantics clone" — 
allocates a fresh reference holding a copy of the source value.  The relation
population steps degenerate to clones because these definitions are used for
metadata that declares no relations (the hypotheses of the theorem about
them); every other step mirrors the source line by line.
-/

/-- A heap of entity objects: reference `r` holds `cells[r]`. -/
structure RHeap where
  cells : List Value
deriving Repr

/-- Dereference (`vNull` for a dangling reference; the theorems only
dereference live references). -/
def RHeap.get (h : RHeap) (r : Nat) : Value :=
  h.cells.getD r .vNull

/-- Allocate a fresh reference holding `v`. -/
def RHeap.alloc (h : RHeap) (v : Value) : RHeap × Nat :=
  (⟨h.cells ++ [v]⟩, h.cells.length)

/-- Overwrite the object a reference points at (a caller mutating an entity
object in place, e.g. assigning one of its properties). -/
def RHeap.setRef (h : RHeap) (r : Nat) (v : Value) : RHeap :=
  ⟨h.cells.set r v⟩

/-- Clone: allocate a fresh reference with a copy of the current value
(deep value-semantics copy, after which nothing is shared). -/
def RHeap.clone (h : RHeap) (r : Nat) : RHeap × Nat :=
  h.alloc (h.get r)

/-- A stored row holding a reference to the store-owned entity object. -/
structure RefItem where
  id : Value
  ref : Nat
deriving Repr

/-- The reference-level store: id mode and table map. -/
structure RefPersister where
  idType : MemoryIdType
  data : List (String × List RefItem)
deriving Repr

/-- Items of a table, empty when the table does not exist. -/
def RefPersister.tableItems (st : RefPersister) (t : String) : List RefItem :=
  ((st.data.find? (fun kv => kv.1 == t)).map (fun kv => kv.2)).getD []

/-- Create the table when missing (`createMemoryTable()`). -/
def RefPersister.ensureTable (st : RefPersister) (t : String) : RefPersister :=
  if (st.data.find? (fun kv => kv.1 == t)).isSome then st
  else { st with data := st.data ++ [(t, [])] }

/-- Append one stored row to a table. -/
def RefPersister.pushItem (st : RefPersister) (t : String) (item : RefItem) :
    RefPersister :=
  if (st.data.find? (fun kv => kv.1 == t)).isSome then
    { st with data := st.data.map (fun kv => if kv.1 == t then (kv.1, kv.2 ++ [item]) else kv) }
  else { st with data := st.data ++ [(t, [item])] }

/-- Reference-level `MemoryPersister.insert` for a single entity whose
metadata declares no relations.  Steps, in source order (src lines 238-286):
clone the input; create the table when missing; snapshot the stored ids;
assign a fresh sequencer id when the clone has no truthy id, writing it into
the clone's object; reject a falsy or duplicate id; push the clone's
reference; return a populated copy of it — with no declared relations,
`_prepareItem` and the two population passes are three clones. -/
def RefPersister.insert (seq : Nat) (h : RHeap) (st : RefPersister) (r : Nat)
    (metadata : EntityMetadata) : Nat × RHeap × RefPersister × Except String Nat :=
  let cloned := h.clone r
  let h := cloned.1
  let rc := cloned.2
  let st := st.ensureTable metadata.tableName
  let allIds := (st.tableItems metadata.tableName).map (fun it => it.id)
  let idProp := metadata.idPropertyName
  let assigned :=
    if !(hasProp (h.get rc) idProp && truthy (getPropD (h.get rc) idProp)) then
      (seq + 1, h.setRef rc (setProp (h.get rc) idProp (formatNewId st.idType (seq + 1))))
    else (seq, h)
  let seq := assigned.1
  let h := assigned.2
  let id := getPropD (h.get rc) idProp
  if !(truthy id) then (seq, h, st, .error "Entity cannot be saved with id as given")
  else if allIds.any (fun x => strictEq x id) then
    (seq, h, st, .error "Entity already stored with id")
  else
    let st := st.pushItem metadata.tableName ⟨id, rc⟩
    let c1 := h.clone rc
    let c2 := c1.1.clone c1.2
    let c3 := c2.1.clone c2.2
    (seq, c3.1, st, .ok c3.2)

/-- Reference-level `MemoryPersister.findById` for metadata that declares no
relations: scan by `===` on the id, then hand out a populated clone of the
stored object (three clones, as above). -/
def RefPersister.findById (h : RHeap) (st : RefPersister) (id : Value)
    (metadata : EntityMetadata) : RHeap × Option Nat :=
  match (st.tableItems metadata.tableName).find? (fun it => strictEq it.id id) with
  | none => (h, none)
  | some item =>
    let c1 := h.clone item.ref
    let c2 := c1.1.clone c1.2
    let c3 := c2.1.clone c2.2
    (c3.1, some c3.2)

/-- A caller mutating one property of the entity object behind a reference. -/
def RHeap.mutateProp (h : RHeap) (r : Nat) (p : String) (v : Value) : RHeap :=
  h.setRef r (setProp (h.get r) p v)

/-- Replay of the ids a batch receives during `insert` (src lines 255-272),
ignoring the rejection checks: each item keeps its pre-set id or draws the
next sequencer value.  Used to state the duplicate-id condition of a batch. -/
def batchAssignedIds (idType : MemoryIdType) (idPropertyName : String) :
    Nat → List Value → List Value
  | _, [] => []
  | seq, item :: rest =>
    let assigned := insertAssign idType idPropertyName seq item
    getPropD assigned.2 idPropertyName
      :: batchAssignedIds idType idPropertyName assigned.1 rest

/-- Whether some id of the batch duplicates (`===`) an id already stored in
the table snapshot or the id of an earlier batch item. -/
def hasIdConflict (allIds : List Value) : List Value → Bool
  | [] => false
  | id :: rest =>
    allIds.any (fun x => strictEq x id) || hasIdConflict (allIds ++ [id]) rest

/-- Pairwise distinctness of a list of id values under `===`. -/
def IdsDistinct (l : List Value) : Prop :=
  l.Pairwise (fun a b => strictEq a b = false)

/-- The implicit invariant of claim C9: within every stored table, item ids
are pairwise distinct under `===`. -/
def MemoryPersister.IdsInvariant (st : MemoryPersister) : Prop :=
  ∀ kv ∈ st.data, IdsDistinct (kv.2.items.map (fun it => it.id))

instance : DecidablePred IdsDistinct := fun l =>
  List.instDecidablePairwise l

instance (st : MemoryPersister) : Decidable st.IdsInvariant :=
  List.decidableBAll _ st.data

/-- Fixture: metadata of a relation-free entity type with a string id column
and one payload column. -/
def mdPlain : EntityMetadata :=
  ⟨"items", "id", [⟨"id", "id"⟩, ⟨"name", "name"⟩], [], []⟩

/-- Fixture: an entity without an id property. -/
def ePlain : Value := .vObj [("name", .vStr "alpha")]

/-- Fixture: an entity with the pre-set id `"a1"`. -/
def ePreset : Value := .vObj [("id", .vStr "a1"), ("name", .vStr "alpha")]

/-- Fixture: a fresh string-mode persister. -/
def stEmpty : MemoryPersister := MemoryPersister.new .STRING

/-- Fixture: a persister already storing `ePreset` under id `"a1"`. -/
def stOne : MemoryPersister :=
  ⟨.STRING, [("items", ⟨[⟨.vStr "a1", ePreset⟩]⟩)], [("items", mdPlain)]⟩

/-- Fixture for C5: metadata of table `bs`, whose field list has no property
named `kidRef` and none named `owner`. -/
def mdB : EntityMetadata := ⟨"bs", "id", [⟨"id", "id"⟩], [], []⟩

/-- Fixture for C5: metadata of table `as`, declaring a one-to-many relation
whose `mappedBy` (`kidRef`) matches no field of the mapped table `bs`, and a
many-to-one relation whose `propertyName` (`owner`) matches no own field. -/
def mdA : EntityMetadata :=
  ⟨"as", "id", [⟨"id", "id"⟩], [⟨"kids", "kidRef", "bs"⟩], [⟨"owner", "bs"⟩]⟩

/-- Fixture for C5: a persister with both metadata records registered and an
existing (empty) `bs` table. -/
def stC5 : MemoryPersister :=
  ⟨.STRING, [("bs", ⟨[]⟩)], [("as", mdA), ("bs", mdB)]⟩

/-- Fixture for C5: an entity of table `as`. -/
def eA : Value := .vObj [("id", .vStr "a1")]

/-- Fixture for C6: metadata of table `grands`. -/
def mdGrand : EntityMetadata :=
  ⟨"grands", "gid", [⟨"gid", "gid"⟩, ⟨"x", "x"⟩], [], []⟩

/-- Fixture for C6: the stored grandparent row value. -/
def grandStored : Value := .vObj [("gid", .vStr "g1"), ("x", .vNum 5)]

/-- Fixture for C6: metadata of table `parents`, itself declaring a
many-to-one relation `gp` to `grands` over join column `gid`. -/
def mdParent : EntityMetadata :=
  ⟨"parents", "pid", [⟨"pid", "pid"⟩, ⟨"gp", "gid"⟩], [], [⟨"gp", "grands"⟩]⟩

/-- Fixture for C6: the stored parent row value; its `gp` property holds the
unresolved placeholder carrying the grandparent id. -/
def parentStored : Value :=
  .vObj [("pid", .vStr "p1"), ("gp", .vObj [("gid", .vStr "g1")])]

/-- Fixture for C6: metadata of table `children`, declaring a many-to-one
relation `parent` to `parents` over join column `pid`. -/
def mdChild : EntityMetadata :=
  ⟨"children", "cid", [⟨"cid", "cid"⟩, ⟨"parent", "pid"⟩], [], [⟨"parent", "parents"⟩]⟩

/-- Fixture for C6: a child entity whose `parent` placeholder carries the
stored parent's id. -/
def eChild : Value :=
  .vObj [("cid", .vStr "c1"), ("parent", .vObj [("pid", .vStr "p1")])]

/-- Fixture for C6: the persister storing the parent and grandparent rows,
with all three metadata records registered. -/
def stC6 : MemoryPersister :=
  ⟨.STRING,
   [("parents", ⟨[⟨.vStr "p1", parentStored⟩]⟩), ("grands", ⟨[⟨.vStr "g1", grandStored⟩]⟩)],
   [("parents", mdParent), ("grands", mdGrand), ("children", mdChild)]⟩

/-- Fixture for C6: the fully populated parent (its `gp` relation resolved to
the stored grandparent), which is what the claim promises and the code does
not produce. -/
def parentFull : Value :=
  .vObj [("pid", .vStr "p1"), ("gp", grandStored)]

/-- Fixture for C7: a sub-builder rendering the empty string while owning one
value factory. -/
def subEmpty : QueryBuilderModel Nat := ⟨"", [7]⟩

/-- Fixture for C7: the enclosing builder right after embedding `subEmpty`. -/
def bC7 : PgSelectQueryBuilder Nat :=
  (PgSelectQueryBuilder.new Nat).includeColumnFromQueryBuilder subEmpty "a"

/-- Fixture for C8: a builder with a nonempty table prefix, a from-table and
a group-by column. -/
def bC8 : PgSelectQueryBuilder Nat :=
  applyOps (PgSelectQueryBuilder.new Nat)
    [.setTablePfx "x_", .includeAllColumnsFromTable "t", .setFromTable "t", .setGroupByColumn "c"]

/-- Observer: the entity value a reference-level `findById` hands out (the
object its returned reference points at), `none` when no row matches. -/
def RefPersister.findByIdVal (h : RHeap) (st : RefPersister) (id : Value)
    (md : EntityMetadata) : Option Value :=
  match (RefPersister.findById h st id md).2 with
  | none => none
  | some rf => some ((RefPersister.findById h st id md).1.get rf)

/-- Fixture: the entity value produced by inserting `ePlain` fresh at
sequencer value 0 (the id `"1"` is appended as a new property). -/
def eXC3 : Value := .vObj [("name", .vStr "alpha"), ("id", .vStr "1")]

/-- Fixture: the persister state after that insert. -/
def stXC3 : MemoryPersister :=
  ⟨.STRING, [("items", ⟨[⟨.vStr "1", eXC3⟩]⟩)], []⟩

/-- Fixture: the persister state after inserting `ePreset` into `stEmpty`. -/
def stC2after : MemoryPersister :=
  ⟨.STRING, [("items", ⟨[⟨.vStr "a1", ePreset⟩]⟩)], []⟩

/-- Fixture: the heap after the reference-level insert of `ePreset` (cell 0
holds the caller's object, cell 1 the store's clone, cells 2-4 the clones made
while preparing the returned copy). -/
def hC2 : RHeap := ⟨[ePreset, ePreset, ePreset, ePreset, ePreset]⟩

/-- Fixture: the reference-level store after that insert (the stored row
references cell 1). -/
def stRC2 : RefPersister := ⟨.STRING, [("items", [⟨.vStr "a1", 1⟩])]⟩

/-!
Helper lemmas.
-/

theorem natDecDigitsAux_ne_nil (fuel n : Nat) (h : 0 < fuel) :
    natDecDigitsAux fuel n ≠ [] := by
  cases fuel with
  | zero => omega
  | succ f =>
    simp only [natDecDigitsAux]
    by_cases h10 : n < 10 <;> simp [h10]

theorem decDigitChar_inj :
    ∀ a, a < 10 → ∀ b, b < 10 → Char.ofNat (48 + a) = Char.ofNat (48 + b) → a = b := by
  decide

theorem natDecDigitsAux_inj :
    ∀ m n fm fn : Nat, m < fm → n < fn →
      natDecDigitsAux fm m = natDecDigitsAux fn n → m = n := by
  intro m
  induction m using Nat.strong_induction_on with
  | _ m ih =>
    intro n fm fn hm hn heq
    cases fm with
    | zero => omega
    | succ fm =>
      cases fn with
      | zero => omega
      | succ fn =>
        simp only [natDecDigitsAux] at heq
        by_cases h1 : m < 10 <;> by_cases h2 : n < 10
        · simp only [if_pos h1, if_pos h2, List.cons.injEq] at heq
          exact decDigitChar_inj m h1 n h2 heq.1
        · exfalso
          simp only [if_pos h1, if_neg h2] at heq
          have hne : natDecDigitsAux fn (n / 10) ≠ [] :=
            natDecDigitsAux_ne_nil fn (n / 10) (by omega)
          have hlen := congrArg List.length heq
          simp only [List.length_cons, List.length_nil, List.length_append] at hlen
          have : 0 < (natDecDigitsAux fn (n / 10)).length := List.length_pos.mpr hne
          omega
        · exfalso
          simp only [if_neg h1, if_pos h2] at heq
          have hne : natDecDigitsAux fm (m / 10) ≠ [] :=
            natDecDigitsAux_ne_nil fm (m / 10) (by omega)
          have hlen := congrArg List.length heq
          simp only [List.length_cons, List.length_nil, List.length_append] at hlen
          have : 0 < (natDecDigitsAux fm (m / 10)).length := List.length_pos.mpr hne
          omega
        · simp only [if_neg h1, if_neg h2] at heq
          have hrev := congrArg List.reverse heq
          simp only [List.reverse_append, List.reverse_cons, List.reverse_nil,
            List.nil_append, List.singleton_append, List.cons.injEq] at hrev
          have hmod : m % 10 = n % 10 :=
            decDigitChar_inj (m % 10) (Nat.mod_lt m (by omega)) (n % 10)
              (Nat.mod_lt n (by omega)) hrev.1
          have hdiv_lists : natDecDigitsAux fm (m / 10) = natDecDigitsAux fn (n / 10) :=
            List.reverse_injective hrev.2
          have hmle : m / 10 < m := Nat.div_lt_self (by omega) (by omega)
          have hdiv : m / 10 = n / 10 := by
            apply ih (m / 10) hmle (n / 10) fm fn (by omega)
              (by have : n / 10 < n := Nat.div_lt_self (by omega) (by omega); omega)
              hdiv_lists
          have e1 := Nat.div_add_mod m 10
          have e2 := Nat.div_add_mod n 10
          omega

theorem natToDec_inj {m n : Nat} (h : natToDec m = natToDec n) : m = n := by
  have hd := congrArg String.data h
  exact natDecDigitsAux_inj m n (m + 1) (n + 1) (Nat.lt_succ_self m) (Nat.lt_succ_self n) hd

theorem natToDec_ne_empty (n : Nat) : natToDec n ≠ "" := by
  intro h
  have hd := congrArg String.data h
  exact natDecDigitsAux_ne_nil (n + 1) n (Nat.succ_pos n) hd

theorem truthy_formatNewId (ty : MemoryIdType) (n : Nat) (h : 0 < n) :
    truthy (formatNewId ty n) = true := by
  cases ty with
  | STRING =>
    simp only [formatNewId, truthy, Bool.not_eq_true']
    exact beq_eq_false_iff_ne.mpr (natToDec_ne_empty n)
  | NUMBER =>
    simp only [formatNewId, truthy, Bool.not_eq_true']
    refine beq_eq_false_iff_ne.mpr (fun he => ?_)
    have hc : (n : Int) = 0 := he
    have : n = 0 := by exact_mod_cast hc
    omega

theorem formatNewId_strictEq_false (ty1 ty2 : MemoryIdType) (m n : Nat) (h : m ≠ n) :
    strictEq (formatNewId ty1 m) (formatNewId ty2 n) = false := by
  cases ty1 <;> cases ty2 <;> simp only [formatNewId, strictEq]
  · exact beq_eq_false_iff_ne.mpr (fun he => h (natToDec_inj he))
  · refine beq_eq_false_iff_ne.mpr (fun he => ?_)
    have hc : (m : Int) = (n : Int) := he
    have : m = n := by exact_mod_cast hc
    exact h this

theorem strictEq_refl_of_isPrim (v : Value) (h : isPrim v = true) :
    strictEq v v = true := by
  cases v <;> simp_all [isPrim, strictEq]

theorem isPrim_formatNewId (ty : MemoryIdType) (n : Nat) :
    isPrim (formatNewId ty n) = true := by
  cases ty <;> rfl

theorem getProp_setProp_self (fs : List (String × Value)) (p : String) (v : Value) :
    getProp (setProp (.vObj fs) p v) p = some v := by
  induction fs with
  | nil => simp [setProp, setField, getProp]
  | cons kv rest ih =>
    obtain ⟨k, w⟩ := kv
    by_cases hk : k == p
    · have : k = p := eq_of_beq hk
      subst this
      simp [setProp, setField, getProp]
    · simp only [setProp, setField, hk, Bool.false_eq_true, if_false, getProp,
        List.find?_cons, hk]
      simpa [setProp, getProp] using ih

theorem getProp_setProp_ne (fs : List (String × Value)) (p p' : String) (v : Value)
    (h : p' ≠ p) : getProp (setProp (.vObj fs) p v) p' = getProp (.vObj fs) p' := by
  induction fs with
  | nil =>
    have : (p == p') = false := beq_eq_false_iff_ne.mpr (fun he => h he.symm)
    simp [setProp, setField, getProp, this]
  | cons kv rest ih =>
    obtain ⟨k, w⟩ := kv
    by_cases hk : k == p
    · have hkp : k = p := eq_of_beq hk
      subst hkp
      have : (k == p') = false := beq_eq_false_iff_ne.mpr (fun he => h he.symm)
      simp [setProp, setField, getProp, this]
    · by_cases hk' : k == p'
      · simp [setProp, setField, hk, getProp, hk']
      · simp only [setProp, setField, hk, Bool.false_eq_true, if_false, getProp,
          List.find?_cons, hk']
        simpa [setProp, getProp] using ih

theorem find?_append_none {α : Type} (l1 l2 : List α) (p : α → Bool)
    (h : l1.find? p = none) : (l1 ++ l2).find? p = l2.find? p := by
  rw [List.find?_append, h, Option.none_or]

theorem find?_map_key {β : Type} (data : List (String × β)) (t t' : String) (f : β) :
    (data.map (fun kv => if kv.1 == t then (kv.1, f) else kv)).find? (fun kv => kv.1 == t')
      = (data.find? (fun kv => kv.1 == t')).map (fun kv => if kv.1 == t then (kv.1, f) else kv) := by
  induction data with
  | nil => rfl
  | cons kv rest ih =>
    simp only [List.map_cons, List.find?_cons]
    have hfst : ((if kv.1 == t then (kv.1, f) else kv).1 == t') = (kv.1 == t') := by
      by_cases h2 : kv.1 == t <;> simp [h2]
    by_cases h : kv.1 == t'
    · simp only [hfst, h]
      rfl
    · simp only [hfst, h]
      exact ih

theorem hasTable_false_find?_none (st : MemoryPersister) (t : String)
    (h : ¬ st.hasTable t = true) : st.data.find? (fun kv => kv.1 == t) = none := by
  cases hfind : st.data.find? (fun kv => kv.1 == t) with
  | none => rfl
  | some kv => exact absurd (by simp [MemoryPersister.hasTable, hfind]) h

theorem tableItems_ensureTable (st : MemoryPersister) (t t' : String) :
    (st.ensureTable t).tableItems t' = st.tableItems t' := by
  simp only [MemoryPersister.ensureTable]
  by_cases h : st.hasTable t
  · rw [if_pos h]
  · rw [if_neg h]
    simp only [MemoryPersister.tableItems, MemoryPersister.lookupTable]
    rw [List.find?_append]
    cases hf : st.data.find? (fun kv => kv.1 == t') with
    | some kv => rfl
    | none =>
      simp only [Option.none_or]
      by_cases h3 : t == t'
      · have ht : t = t' := eq_of_beq h3
        subst ht
        simp [List.find?_cons, createMemoryTable]
      · simp [List.find?_cons, h3, createMemoryTable]

theorem idType_ensureTable (st : MemoryPersister) (t : String) :
    (st.ensureTable t).idType = st.idType := by
  simp only [MemoryPersister.ensureTable]
  by_cases h : st.hasTable t
  · rw [if_pos h]
  · rw [if_neg h]

theorem idType_setTableItems (st : MemoryPersister) (t : String) (items : List MemoryItem) :
    (st.setTableItems t items).idType = st.idType := by
  simp only [MemoryPersister.setTableItems]
  by_cases h : st.hasTable t
  · rw [if_pos h]
  · rw [if_neg h]

theorem metadataByTable_ensureTable (st : MemoryPersister) (t : String) :
    (st.ensureTable t).metadataByTable = st.metadataByTable := by
  simp only [MemoryPersister.ensureTable]
  by_cases h : st.hasTable t
  · rw [if_pos h]
  · rw [if_neg h]

theorem metadataByTable_setTableItems (st : MemoryPersister) (t : String)
    (items : List MemoryItem) :
    (st.setTableItems t items).metadataByTable = st.metadataByTable := by
  simp only [MemoryPersister.setTableItems]
  by_cases h : st.hasTable t
  · rw [if_pos h]
  · rw [if_neg h]

theorem tableItems_setTableItems_self (st : MemoryPersister) (t : String)
    (items : List MemoryItem) :
    (st.setTableItems t items).tableItems t = items := by
  simp only [MemoryPersister.setTableItems]
  by_cases h : st.hasTable t
  · rw [if_pos h]
    have h' : (st.data.find? (fun kv => kv.1 == t)).isSome = true := h
    obtain ⟨kv, hkv⟩ := Option.isSome_iff_exists.mp h'
    have hk := List.find?_some hkv
    simp only at hk
    simp only [MemoryPersister.tableItems, MemoryPersister.lookupTable, find?_map_key, hkv]
    simp [eq_of_beq hk]
  · rw [if_neg h]
    have hnone := hasTable_false_find?_none st t h
    simp only [MemoryPersister.tableItems, MemoryPersister.lookupTable]
    rw [List.find?_append, hnone]
    simp [List.find?_cons]

theorem tableItems_setTableItems_ne (st : MemoryPersister) (t t' : String)
    (items : List MemoryItem) (h : t' ≠ t) :
    (st.setTableItems t items).tableItems t' = st.tableItems t' := by
  simp only [MemoryPersister.setTableItems]
  by_cases hh : st.hasTable t
  · rw [if_pos hh]
    simp only [MemoryPersister.tableItems, MemoryPersister.lookupTable, find?_map_key]
    cases hf : st.data.find? (fun kv => kv.1 == t') with
    | none => rfl
    | some kv =>
      have hk := List.find?_some hf
      simp only at hk
      have hne : (kv.1 == t) = false := by
        refine beq_eq_false_iff_ne.mpr (fun he => ?_)
        exact h ((eq_of_beq hk).symm.trans he)
      simp [beq_eq_false_iff_ne.mp hne]
  · rw [if_neg hh]
    simp only [MemoryPersister.tableItems, MemoryPersister.lookupTable]
    rw [List.find?_append]
    cases hf : st.data.find? (fun kv => kv.1 == t') with
    | some kv => rfl
    | none =>
      have hne : (t == t') = false := beq_eq_false_iff_ne.mpr (fun he => h he.symm)
      simp [List.find?_cons, hne, createMemoryTable]

theorem populateOneToMany_no_relations (st : MemoryPersister) (e : Value)
    (md : EntityMetadata) (h : md.oneToManyRelations = []) :
    st.populateOneToManyRelations e md = .ok e := by
  simp [MemoryPersister.populateOneToManyRelations, h, populateOneToManyList]

theorem populateManyToOne_no_relations (st : MemoryPersister) (e : Value)
    (md : EntityMetadata) (h : md.manyToOneRelations = []) :
    st.populateManyToOneRelations e md = .ok e := by
  simp [MemoryPersister.populateManyToOneRelations, h, populateManyToOneList]

theorem populateRelations_no_relations (st : MemoryPersister) (e : Value)
    (md : EntityMetadata) (h1 : md.oneToManyRelations = [])
    (h2 : md.manyToOneRelations = []) :
    st.populateRelations e md = .ok e := by
  simp [MemoryPersister.populateRelations, populateOneToMany_no_relations st e md h1,
    populateManyToOne_no_relations st e md h2]

theorem insertNewItems_nil (ty : MemoryIdType) (p : String) (seq : Nat)
    (allIds : List Value) : insertNewItems ty p seq allIds [] = (seq, .ok []) := rfl

theorem insertNewItems_singleton (ty : MemoryIdType) (p : String) (seq : Nat)
    (allIds : List Value) (e : Value) :
    insertNewItems ty p seq allIds [e] =
      (if !(truthy (getPropD (insertAssign ty p seq e).2 p)) then
        ((insertAssign ty p seq e).1, .error "Entity cannot be saved with id as given")
      else if allIds.any (fun x => strictEq x (getPropD (insertAssign ty p seq e).2 p)) then
        ((insertAssign ty p seq e).1, .error "Entity already stored with id")
      else
        ((insertAssign ty p seq e).1,
          .ok [createMemoryItem (getPropD (insertAssign ty p seq e).2 p) (insertAssign ty p seq e).2])) := by
  rfl

theorem insertNewItems_conflict_error (ty : MemoryIdType) (p : String) :
    ∀ (entities : List Value) (seq : Nat) (allIds : List Value),
      hasIdConflict allIds (batchAssignedIds ty p seq entities) = true →
      ∃ e, (insertNewItems ty p seq allIds entities).2 = .error e := by
  intro entities
  induction entities with
  | nil =>
    intro seq allIds h
    simp [batchAssignedIds, hasIdConflict] at h
  | cons item rest ih =>
    intro seq allIds h
    simp only [batchAssignedIds, hasIdConflict, Bool.or_eq_true] at h
    simp only [insertNewItems]
    by_cases h1 : truthy (getPropD (insertAssign ty p seq item).2 p)
    · simp only [h1, Bool.not_true, Bool.false_eq_true, if_false]
      by_cases h2 : allIds.any (fun x => strictEq x (getPropD (insertAssign ty p seq item).2 p))
      · simp only [h2, if_true]
        exact ⟨_, rfl⟩
      · simp only [h2, Bool.false_eq_true, if_false]
        have hconf : hasIdConflict (allIds ++ [getPropD (insertAssign ty p seq item).2 p])
            (batchAssignedIds ty p (insertAssign ty p seq item).1 rest) = true := by
          rcases h with hl | hr
          · exact absurd hl (by simp [h2])
          · exact hr
        obtain ⟨e, he⟩ := ih (insertAssign ty p seq item).1
          (allIds ++ [getPropD (insertAssign ty p seq item).2 p]) hconf
        cases hrec : insertNewItems ty p (insertAssign ty p seq item).1
            (allIds ++ [getPropD (insertAssign ty p seq item).2 p]) rest with
        | mk seq2 res =>
          rw [hrec] at he
          simp only at he
          cases res with
          | ok items => exact absurd he (by simp)
          | error e2 => exact ⟨e2, rfl⟩
    · simp only [h1, Bool.not_false, if_true]
      exact ⟨_, rfl⟩

/-- Claim C1: an insert batch containing any id — pre-set or freshly drawn —
that duplicates a stored id or an earlier batch id makes the whole call fail,
and no table's contents change (the target table may be lazily created, but it
receives no items; no item of the batch is appended). -/
theorem C1_insert_batch_atomic (seq : Nat) (st : MemoryPersister)
    (entities : List Value) (md : EntityMetadata)
    (hconf : hasIdConflict ((st.tableItems md.tableName).map (fun it => it.id))
      (batchAssignedIds st.idType md.idPropertyName seq entities) = true) :
    (∃ e, (MemoryPersister.insert seq st entities md).2.2 = .error e)
    ∧ ∀ t, (MemoryPersister.insert seq st entities md).2.1.tableItems t
        = st.tableItems t := by
  obtain ⟨e, he⟩ := insertNewItems_conflict_error st.idType md.idPropertyName entities seq
    ((st.tableItems md.tableName).map (fun it => it.id)) hconf
  simp only [MemoryPersister.insert, idType_ensureTable, tableItems_ensureTable]
  cases hrec : insertNewItems st.idType md.idPropertyName seq
      ((st.tableItems md.tableName).map (fun it => it.id)) entities with
  | mk seq2 res =>
    rw [hrec] at he
    simp only at he
    cases res with
    | ok items => exact absurd he (by simp)
    | error e2 =>
      refine ⟨⟨e2, rfl⟩, fun t => ?_⟩
      simp only [tableItems_ensureTable]

/-- Claim C10: inserting an empty batch always fails (there is no first
inserted entity to return) and changes no table's contents (the target table
may be lazily created empty). -/
theorem C10_insert_empty_batch (seq : Nat) (st : MemoryPersister)
    (md : EntityMetadata) :
    (MemoryPersister.insert seq st [] md).2.2 = .error "Could not add items"
    ∧ (MemoryPersister.insert seq st [] md).1 = seq
    ∧ ∀ t, (MemoryPersister.insert seq st [] md).2.1.tableItems t
        = st.tableItems t := by
  simp only [MemoryPersister.insert, insertNewItems_nil, List.append_nil, List.head?_nil]
  refine ⟨trivial, trivial, fun t => ?_⟩
  by_cases h : t = md.tableName
  · subst h
    rw [tableItems_setTableItems_self, tableItems_ensureTable]
  · rw [tableItems_setTableItems_ne _ _ _ _ h, tableItems_ensureTable]

theorem insert_singleton_trace (seq : Nat) (st : MemoryPersister) (e : Value)
    (md : EntityMetadata) (seq' : Nat) (st' : MemoryPersister) (v : Value)
    (h1 : md.oneToManyRelations = []) (h2 : md.manyToOneRelations = [])
    (h : MemoryPersister.insert seq st [e] md = (seq', st', .ok v)) :
    v = (insertAssign st.idType md.idPropertyName seq e).2
    ∧ seq' = (insertAssign st.idType md.idPropertyName seq e).1
    ∧ truthy (getPropD v md.idPropertyName) = true
    ∧ ((st.tableItems md.tableName).map (fun it => it.id)).any
        (fun x => strictEq x (getPropD v md.idPropertyName)) = false
    ∧ st'.tableItems md.tableName
        = st.tableItems md.tableName
          ++ [createMemoryItem (getPropD v md.idPropertyName) v]
    ∧ (∀ t, t ≠ md.tableName → st'.tableItems t = st.tableItems t) := by
  by_cases hA : truthy (getPropD (insertAssign st.idType md.idPropertyName seq e).2
      md.idPropertyName)
  · by_cases hB : ((st.tableItems md.tableName).map (fun it => it.id)).any
        (fun x => strictEq x (getPropD (insertAssign st.idType md.idPropertyName seq e).2
          md.idPropertyName))
    · exfalso
      simp only [MemoryPersister.insert, idType_ensureTable, tableItems_ensureTable,
        insertNewItems_singleton, hA, hB, Bool.not_true, Bool.false_eq_true, if_false,
        if_true] at h
      simp at h
    · have hins : MemoryPersister.insert seq st [e] md
          = ((insertAssign st.idType md.idPropertyName seq e).1,
             (st.ensureTable md.tableName).setTableItems md.tableName
               (st.tableItems md.tableName
                 ++ [createMemoryItem
                      (getPropD (insertAssign st.idType md.idPropertyName seq e).2
                        md.idPropertyName)
                      (insertAssign st.idType md.idPropertyName seq e).2]),
             .ok (insertAssign st.idType md.idPropertyName seq e).2) := by
        simp only [MemoryPersister.insert, idType_ensureTable, tableItems_ensureTable,
          insertNewItems_singleton, hA, hB, Bool.not_true, Bool.false_eq_true, if_false,
          List.head?_cons, List.singleton_append, List.cons_append, List.nil_append]
        rw [populateRelations_no_relations _ _ _ h1 h2]
        rfl
      rw [hins] at h
      simp only [Prod.mk.injEq, Except.ok.injEq] at h
      obtain ⟨hseq, hst, hv⟩ := h
      subst hseq
      subst hst
      subst hv
      refine ⟨rfl, rfl, hA, by simpa using hB, ?_, ?_⟩
      · rw [tableItems_setTableItems_self]
      · intro t ht
        rw [tableItems_setTableItems_ne _ _ _ _ ht, tableItems_ensureTable]
  · exfalso
    simp only [MemoryPersister.insert, idType_ensureTable, tableItems_ensureTable,
      insertNewItems_singleton, hA, Bool.not_false, if_true] at h
    simp at h

/-- Claim C3: an entity inserted without a pre-set id receives the next value
of the process-wide sequencer (`seq + 1`), formatted per the configured id
mode; the returned copy carries it, it is truthy (non-empty), and it differs
under `===` from every id any earlier sequencer value produced, in either id
mode (so across all tables and persister instances sharing the counter). -/
theorem C3_fresh_id (seq : Nat) (st : MemoryPersister) (e : Value)
    (md : EntityMetadata) (seq' : Nat) (st' : MemoryPersister) (v : Value)
    (fs : List (String × Value)) (hobj : e = .vObj fs)
    (h1 : md.oneToManyRelations = []) (h2 : md.manyToOneRelations = [])
    (hfresh : ¬(hasProp e md.idPropertyName = true
      ∧ truthy (getPropD e md.idPropertyName) = true))
    (h : MemoryPersister.insert seq st [e] md = (seq', st', .ok v)) :
    getPropD v md.idPropertyName = formatNewId st.idType (seq + 1)
    ∧ truthy (getPropD v md.idPropertyName) = true
    ∧ seq' = seq + 1
    ∧ ∀ (ty : MemoryIdType) (n : Nat), 0 < n → n ≤ seq →
        strictEq (getPropD v md.idPropertyName) (formatNewId ty n) = false := by
  obtain ⟨hv, hseq, htruthy, _, _, _⟩ :=
    insert_singleton_trace seq st e md seq' st' v h1 h2 h
  have ha : insertAssign st.idType md.idPropertyName seq e
      = (seq + 1, setProp e md.idPropertyName (formatNewId st.idType (seq + 1))) := by
    simp only [insertAssign]
    rw [if_pos]
    cases hA : hasProp e md.idPropertyName <;>
      cases hB : truthy (getPropD e md.idPropertyName) <;> simp_all
  have hidv : getPropD v md.idPropertyName = formatNewId st.idType (seq + 1) := by
    rw [hv, ha]
    subst hobj
    simp [getPropD, getProp_setProp_self]
  refine ⟨hidv, htruthy, by rw [hseq, ha], fun ty n hn hle => ?_⟩
  rw [hidv]
  exact formatNewId_strictEq_false st.idType ty (seq + 1) n (by omega)

/-- Witness for C3 at a concrete input: inserting `ePlain` (no id property)
into the empty string-mode persister at sequencer value 0. -/
theorem C3_fresh_id_witness :
    getPropD eXC3 "id" = formatNewId MemoryIdType.STRING (0 + 1)
    ∧ truthy (getPropD eXC3 "id") = true
    ∧ 1 = 0 + 1
    ∧ ∀ (ty : MemoryIdType) (n : Nat), 0 < n → n ≤ 0 →
        strictEq (getPropD eXC3 "id") (formatNewId ty n) = false :=
  C3_fresh_id 0 stEmpty ePlain mdPlain 1 stXC3 eXC3 [("name", .vStr "alpha")]
    rfl rfl rfl (by decide) rfl

/-- Witness for C1 at a concrete input: inserting an entity whose pre-set id
`"a1"` is already stored in `stOne`. -/
theorem C1_insert_batch_atomic_witness :
    (∃ e, (MemoryPersister.insert 0 stOne [ePreset] mdPlain).2.2 = .error e)
    ∧ ∀ t, (MemoryPersister.insert 0 stOne [ePreset] mdPlain).2.1.tableItems t
        = stOne.tableItems t :=
  C1_insert_batch_atomic 0 stOne [ePreset] mdPlain (by decide)

theorem insert_roundtrip_value (seq : Nat) (st : MemoryPersister) (e : Value)
    (fs : List (String × Value)) (md : EntityMetadata) (seq' : Nat)
    (st' : MemoryPersister) (v : Value)
    (h1 : md.oneToManyRelations = []) (h2 : md.manyToOneRelations = [])
    (hobj : e = .vObj fs)
    (hprimPre : hasProp e md.idPropertyName = true →
      truthy (getPropD e md.idPropertyName) = true →
      isPrim (getPropD e md.idPropertyName) = true)
    (h : MemoryPersister.insert seq st [e] md = (seq', st', .ok v)) :
    st'.findById (getPropD v md.idPropertyName) md = .ok (some v)
    ∧ (∀ f ∈ md.fields, f.propertyName ≠ md.idPropertyName →
        getProp v f.propertyName = getProp e f.propertyName)
    ∧ (hasProp e md.idPropertyName = true →
        truthy (getPropD e md.idPropertyName) = true → v = e) := by
  obtain ⟨hv, hseq, htruthy, hany, hset, hsetne⟩ :=
    insert_singleton_trace seq st e md seq' st' v h1 h2 h
  by_cases hA : hasProp e md.idPropertyName = true
      ∧ truthy (getPropD e md.idPropertyName) = true
  · have ha : insertAssign st.idType md.idPropertyName seq e = (seq, e) := by
      simp [insertAssign, hA.1, hA.2]
    have hve : v = e := by rw [hv, ha]
    have hprim : isPrim (getPropD v md.idPropertyName) = true := by
      rw [hve]
      exact hprimPre hA.1 hA.2
    refine ⟨?_, fun f _ _ => by rw [hve], fun _ _ => hve⟩
    have hnone : (st.tableItems md.tableName).find?
        (fun it => strictEq it.id (getPropD v md.idPropertyName)) = none := by
      refine List.find?_eq_none.mpr (fun it hit => ?_)
      have := List.any_eq_false.mp hany (it.id) (List.mem_map_of_mem _ hit)
      simpa using this
    simp only [MemoryPersister.findById, hset]
    rw [find?_append_none _ _ _ hnone]
    simp only [List.find?_cons, createMemoryItem, strictEq_refl_of_isPrim _ hprim]
    rw [populateRelations_no_relations _ _ _ h1 h2]
  · have ha : insertAssign st.idType md.idPropertyName seq e
        = (seq + 1, setProp e md.idPropertyName (formatNewId st.idType (seq + 1))) := by
      simp only [insertAssign]
      rw [if_pos]
      cases hA2 : hasProp e md.idPropertyName <;>
        cases hB2 : truthy (getPropD e md.idPropertyName) <;> simp_all
    have hve : v = setProp e md.idPropertyName (formatNewId st.idType (seq + 1)) := by
      rw [hv, ha]
    have hidv : getPropD v md.idPropertyName = formatNewId st.idType (seq + 1) := by
      rw [hve]
      subst hobj
      simp [getPropD, getProp_setProp_self]
    have hprim : isPrim (getPropD v md.idPropertyName) = true := by
      rw [hidv]
      exact isPrim_formatNewId _ _
    refine ⟨?_, fun f _ hne => ?_, fun hhas htr => absurd ⟨hhas, htr⟩ hA⟩
    · have hnone : (st.tableItems md.tableName).find?
          (fun it => strictEq it.id (getPropD v md.idPropertyName)) = none := by
        refine List.find?_eq_none.mpr (fun it hit => ?_)
        have := List.any_eq_false.mp hany (it.id) (List.mem_map_of_mem _ hit)
        simpa using this
      simp only [MemoryPersister.findById, hset]
      rw [find?_append_none _ _ _ hnone]
      simp only [List.find?_cons, createMemoryItem, strictEq_refl_of_isPrim _ hprim]
      rw [populateRelations_no_relations _ _ _ h1 h2]
    · rw [hve]
      subst hobj
      exact getProp_setProp_ne fs md.idPropertyName f.propertyName _ hne

theorem RHeap.get_append_at (l l2 : List Value) (v : Value) :
    RHeap.get ⟨l ++ v :: l2⟩ l.length = v := by
  simp only [RHeap.get, List.getD, List.get?_eq_getElem?]
  rw [List.getElem?_append_right (Nat.le_refl _)]
  simp

theorem RHeap.get_append_lt (l l2 : List Value) (r : Nat) (h : r < l.length) :
    RHeap.get ⟨l ++ l2⟩ r = RHeap.get ⟨l⟩ r := by
  simp [RHeap.get, List.getD, List.getElem?_append, h]

theorem set_append_length (l : List Value) (a b : Value) (l2 : List Value) :
    (l ++ a :: l2).set l.length b = l ++ b :: l2 := by
  induction l with
  | nil => rfl
  | cons x rest ih => simp [List.set_cons_succ, ih]

theorem refTableItems_ensureTable (st : RefPersister) (t t' : String) :
    (st.ensureTable t).tableItems t' = st.tableItems t' := by
  simp only [RefPersister.ensureTable]
  by_cases h : (st.data.find? (fun kv => kv.1 == t)).isSome
  · rw [if_pos h]
  · rw [if_neg h]
    simp only [RefPersister.tableItems]
    rw [List.find?_append]
    cases hf : st.data.find? (fun kv => kv.1 == t') with
    | some kv => rfl
    | none =>
      simp only [Option.none_or]
      by_cases h3 : t == t'
      · have ht : t = t' := eq_of_beq h3
        subst ht
        rw [hf] at h
        simp [List.find?_cons]
      · simp [List.find?_cons, h3, hf]

theorem find?_map_keyPreserving {β : Type} (data : List (String × β))
    (F : String × β → String × β) (hF : ∀ kv, (F kv).1 = kv.1) (t' : String) :
    (data.map F).find? (fun kv => kv.1 == t')
      = (data.find? (fun kv => kv.1 == t')).map F := by
  induction data with
  | nil => rfl
  | cons kv rest ih =>
    simp only [List.map_cons, List.find?_cons]
    have hfst : ((F kv).1 == t') = (kv.1 == t') := by rw [hF]
    by_cases h : kv.1 == t'
    · simp only [hfst, h]
      rfl
    · simp only [hfst, h]
      exact ih

theorem refTableItems_pushItem_self (st : RefPersister) (t : String) (item : RefItem) :
    (st.pushItem t item).tableItems t = st.tableItems t ++ [item] := by
  simp only [RefPersister.pushItem]
  by_cases h : (st.data.find? (fun kv => kv.1 == t)).isSome
  · rw [if_pos h]
    obtain ⟨kv, hkv⟩ := Option.isSome_iff_exists.mp h
    have hk := List.find?_some hkv
    simp only at hk
    have hmap := find?_map_keyPreserving st.data
      (fun kv => if kv.1 == t then (kv.1, kv.2 ++ [item]) else kv)
      (fun kv => by by_cases h2 : kv.1 == t <;> simp [h2]) t
    simp only [RefPersister.tableItems, hmap, hkv]
    simp [eq_of_beq hk]
  · rw [if_neg h]
    have hnone : st.data.find? (fun kv => kv.1 == t) = none := by
      cases hf : st.data.find? (fun kv => kv.1 == t) with
      | none => rfl
      | some kv => rw [hf] at h; simp at h
    simp only [RefPersister.tableItems]
    rw [List.find?_append, hnone]
    simp [List.find?_cons, hnone]

theorem refIdType_ensureTable (st : RefPersister) (t : String) :
    (st.ensureTable t).idType = st.idType := by
  simp only [RefPersister.ensureTable]
  by_cases h : (st.data.find? (fun kv => kv.1 == t)).isSome
  · rw [if_pos h]
  · rw [if_neg h]

theorem RHeap.get_setRef_ne (h : RHeap) (r r' : Nat) (v : Value) (hne : r ≠ r') :
    (h.setRef r' v).get r = h.get r := by
  simp only [RHeap.setRef, RHeap.get, List.getD, List.get?_eq_getElem?]
  rw [List.getElem?_set_ne (fun he => hne he.symm)]

theorem RHeap.get_append3_at2 (l : List Value) (a b c : Value) :
    RHeap.get ⟨l ++ [a, b, c]⟩ (l.length + 2) = c := by
  have := RHeap.get_append_at (l ++ [a, b]) [] c
  simpa [List.append_assoc] using this

theorem RHeap.get_append4_at3 (l : List Value) (a b c d : Value) :
    RHeap.get ⟨l ++ [a, b, c, d]⟩ (l.length + 3) = d := by
  have := RHeap.get_append_at (l ++ [a, b, c]) [] d
  simpa [List.append_assoc] using this

theorem RHeap.get_append2_at1 (l : List Value) (a b : Value) :
    RHeap.get ⟨l ++ [a, b]⟩ (l.length + 1) = b := by
  have := RHeap.get_append_at (l ++ [a]) [] b
  simpa [List.append_assoc] using this

theorem refFindById_found (h : RHeap) (st : RefPersister) (id : Value)
    (md : EntityMetadata) (item : RefItem)
    (hf : (st.tableItems md.tableName).find? (fun it => strictEq it.id id) = some item) :
    RefPersister.findById h st id md
      = (⟨h.cells ++ [h.get item.ref, h.get item.ref, h.get item.ref]⟩,
         some (h.cells.length + 2)) := by
  simp only [RefPersister.findById, hf, RHeap.clone, RHeap.alloc]
  rw [RHeap.get_append_at h.cells [] (h.get item.ref)]
  rw [RHeap.get_append_at (h.cells ++ [h.get item.ref]) [] (h.get item.ref)]
  simp [List.append_assoc]

theorem refInsert_unfold (seq : Nat) (h : RHeap) (st : RefPersister) (r : Nat)
    (md : EntityMetadata) :
    RefPersister.insert seq h st r md =
      (if !(truthy (getPropD (insertAssign st.idType md.idPropertyName seq (h.get r)).2
          md.idPropertyName)) then
        ((insertAssign st.idType md.idPropertyName seq (h.get r)).1,
         ⟨h.cells ++ [(insertAssign st.idType md.idPropertyName seq (h.get r)).2]⟩,
         st.ensureTable md.tableName, .error "Entity cannot be saved with id as given")
      else if ((st.tableItems md.tableName).map (fun it => it.id)).any
          (fun x => strictEq x (getPropD (insertAssign st.idType md.idPropertyName seq
            (h.get r)).2 md.idPropertyName)) then
        ((insertAssign st.idType md.idPropertyName seq (h.get r)).1,
         ⟨h.cells ++ [(insertAssign st.idType md.idPropertyName seq (h.get r)).2]⟩,
         st.ensureTable md.tableName, .error "Entity already stored with id")
      else
        ((insertAssign st.idType md.idPropertyName seq (h.get r)).1,
         ⟨h.cells ++ [(insertAssign st.idType md.idPropertyName seq (h.get r)).2,
           (insertAssign st.idType md.idPropertyName seq (h.get r)).2,
           (insertAssign st.idType md.idPropertyName seq (h.get r)).2,
           (insertAssign st.idType md.idPropertyName seq (h.get r)).2]⟩,
         (st.ensureTable md.tableName).pushItem md.tableName
           ⟨getPropD (insertAssign st.idType md.idPropertyName seq (h.get r)).2
             md.idPropertyName, h.cells.length⟩,
         .ok (h.cells.length + 3))) := by
  simp only [RefPersister.insert, RHeap.clone, RHeap.alloc, refIdType_ensureTable,
    refTableItems_ensureTable, RHeap.get_append_at h.cells []]
  by_cases hPre : hasProp (h.get r) md.idPropertyName
      && truthy (getPropD (h.get r) md.idPropertyName)
  · have ha : insertAssign st.idType md.idPropertyName seq (h.get r) = (seq, h.get r) := by
      simp [insertAssign, hPre]
    simp only [hPre, Bool.not_true, Bool.false_eq_true, if_false, ha]
    rw [RHeap.get_append_at h.cells [] (h.get r)]
    by_cases hT : truthy (getPropD (h.get r) md.idPropertyName)
    · simp only [hT, Bool.not_true, Bool.false_eq_true, if_false]
      by_cases hD : ((st.tableItems md.tableName).map (fun it => it.id)).any
          (fun x => strictEq x (getPropD (h.get r) md.idPropertyName))
      · simp only [hD, if_true]
      · simp only [hD, Bool.false_eq_true, if_false]
        simp [RHeap.get_append_at, RHeap.get_append2_at1, RHeap.get_append3_at2,
          List.append_assoc]
    · simp only [hT, Bool.not_false, if_true]
  · have ha : insertAssign st.idType md.idPropertyName seq (h.get r)
        = (seq + 1, setProp (h.get r) md.idPropertyName (formatNewId st.idType (seq + 1))) := by
      simp only [insertAssign]
      rw [if_pos (by simp [hPre])]
    simp only [hPre, Bool.not_false, if_true, ha, RHeap.setRef]
    rw [set_append_length h.cells (h.get r)
      (setProp (h.get r) md.idPropertyName (formatNewId st.idType (seq + 1))) []]
    rw [RHeap.get_append_at h.cells []
      (setProp (h.get r) md.idPropertyName (formatNewId st.idType (seq + 1)))]
    by_cases hT : truthy (getPropD (setProp (h.get r) md.idPropertyName
        (formatNewId st.idType (seq + 1))) md.idPropertyName)
    · simp only [hT, Bool.not_true, Bool.false_eq_true, if_false]
      by_cases hD : ((st.tableItems md.tableName).map (fun it => it.id)).any
          (fun x => strictEq x (getPropD (setProp (h.get r) md.idPropertyName
            (formatNewId st.idType (seq + 1))) md.idPropertyName))
      · simp only [hD, if_true]
      · simp only [hD, Bool.false_eq_true, if_false]
        simp [RHeap.get_append_at, RHeap.get_append2_at1, RHeap.get_append3_at2,
          List.append_assoc]
    · simp only [hT, Bool.not_false, if_true]

theorem ref_found_value_stable (hbase : RHeap) (st1 : RefPersister) (idv : Value)
    (md : EntityMetadata) (N : Nat) (ec : Value)
    (hfind : (st1.tableItems md.tableName).find? (fun it => strictEq it.id idv)
      = some ⟨idv, N⟩)
    (hN : hbase.get N = ec) (hNlt : N < hbase.cells.length) :
    RefPersister.findByIdVal hbase st1 idv md = some ec
    ∧ (RefPersister.findById hbase st1 idv md).2 = some (hbase.cells.length + 2)
    ∧ ∀ (p : String) (w : Value) (rmut : Nat), rmut ≠ N →
        RefPersister.findByIdVal
          (((RefPersister.findById hbase st1 idv md).1).mutateProp rmut p w) st1 idv md
          = some ec := by
  have hff := refFindById_found hbase st1 idv md ⟨idv, N⟩ hfind
  have hval : RefPersister.findByIdVal hbase st1 idv md = some ec := by
    simp only [RefPersister.findByIdVal, hff]
    simp only [hN]
    rw [RHeap.get_append3_at2]
  refine ⟨hval, by rw [hff], fun p w rmut hne => ?_⟩
  have hff2 := refFindById_found
    ((RHeap.mutateProp (RefPersister.findById hbase st1 idv md).1 rmut p w)) st1 idv md
    ⟨idv, N⟩ hfind
  simp only [RefPersister.findByIdVal, hff2]
  rw [RHeap.get_append3_at2]
  have hstep : (RHeap.mutateProp (RefPersister.findById hbase st1 idv md).1 rmut p w).get N
      = ec := by
    rw [RHeap.mutateProp, RHeap.get_setRef_ne _ N rmut _ (Ne.symm hne)]
    rw [hff]
    simp only [hN]
    rw [RHeap.get_append_lt _ _ _ hNlt]
    exact hN
  rw [hstep]

theorem ref_copy_independence (seq : Nat) (h : RHeap) (st : RefPersister) (r : Nat)
    (fs : List (String × Value)) (md : EntityMetadata) (seq1 : Nat) (h1 : RHeap)
    (st1 : RefPersister) (rIns : Nat)
    (_hrel1 : md.oneToManyRelations = []) (_hrel2 : md.manyToOneRelations = [])
    (hobj : h.get r = .vObj fs)
    (hprimPre : hasProp (h.get r) md.idPropertyName = true →
      truthy (getPropD (h.get r) md.idPropertyName) = true →
      isPrim (getPropD (h.get r) md.idPropertyName) = true)
    (hins : RefPersister.insert seq h st r md = (seq1, h1, st1, .ok rIns)) :
    RefPersister.findByIdVal h1 st1 (getPropD (h1.get rIns) md.idPropertyName) md
        = some (h1.get rIns)
    ∧ (∀ p w, RefPersister.findByIdVal
          (((RefPersister.findById h1 st1 (getPropD (h1.get rIns) md.idPropertyName)
            md).1).mutateProp rIns p w)
          st1 (getPropD (h1.get rIns) md.idPropertyName) md = some (h1.get rIns))
    ∧ (∀ p w rf,
        (RefPersister.findById h1 st1 (getPropD (h1.get rIns) md.idPropertyName) md).2
          = some rf →
        RefPersister.findByIdVal
          (((RefPersister.findById h1 st1 (getPropD (h1.get rIns) md.idPropertyName)
            md).1).mutateProp rf p w)
          st1 (getPropD (h1.get rIns) md.idPropertyName) md = some (h1.get rIns)) := by
  rw [refInsert_unfold] at hins
  by_cases hT : truthy (getPropD (insertAssign st.idType md.idPropertyName seq
      (h.get r)).2 md.idPropertyName)
  · by_cases hD : ((st.tableItems md.tableName).map (fun it => it.id)).any
        (fun x => strictEq x (getPropD (insertAssign st.idType md.idPropertyName seq
          (h.get r)).2 md.idPropertyName))
    · simp [hT, hD] at hins
    · simp only [hT, hD, Bool.not_true, Bool.false_eq_true, if_false] at hins
      have hprim : isPrim (getPropD (insertAssign st.idType md.idPropertyName seq
          (h.get r)).2 md.idPropertyName) = true := by
        by_cases hPre : hasProp (h.get r) md.idPropertyName = true
            ∧ truthy (getPropD (h.get r) md.idPropertyName) = true
        · have ha : insertAssign st.idType md.idPropertyName seq (h.get r)
              = (seq, h.get r) := by
            simp [insertAssign, hPre.1, hPre.2]
          rw [ha]
          exact hprimPre hPre.1 hPre.2
        · have ha : insertAssign st.idType md.idPropertyName seq (h.get r)
              = (seq + 1, setProp (h.get r) md.idPropertyName
                  (formatNewId st.idType (seq + 1))) := by
            simp only [insertAssign]
            rw [if_pos]
            cases hA2 : hasProp (h.get r) md.idPropertyName <;>
              cases hB2 : truthy (getPropD (h.get r) md.idPropertyName) <;> simp_all
          rw [ha, hobj]
          simp [getPropD, getProp_setProp_self, isPrim_formatNewId]
      revert hT hD hprim
      generalize (insertAssign st.idType md.idPropertyName seq (h.get r)).2 = ec at hins
      intro hT hD hprim
      simp only [Prod.mk.injEq, Except.ok.injEq] at hins
      obtain ⟨hseq, hh1, hst1, hr⟩ := hins
      subst hh1
      subst hst1
      subst hr
      rw [RHeap.get_append4_at3]
      have hitems : (((st.ensureTable md.tableName).pushItem md.tableName
            ⟨getPropD ec md.idPropertyName, h.cells.length⟩).tableItems md.tableName)
          = st.tableItems md.tableName
            ++ [⟨getPropD ec md.idPropertyName, h.cells.length⟩] := by
        rw [refTableItems_pushItem_self, refTableItems_ensureTable]
      have hD' : ∀ it ∈ st.tableItems md.tableName,
          strictEq it.id (getPropD ec md.idPropertyName) = false := by
        simpa using hD
      have hnone : (st.tableItems md.tableName).find?
          (fun it => strictEq it.id (getPropD ec md.idPropertyName)) = none := by
        refine List.find?_eq_none.mpr (fun it hit => ?_)
        simp [hD' it hit]
      have hfind : ((((st.ensureTable md.tableName).pushItem md.tableName
            ⟨getPropD ec md.idPropertyName, h.cells.length⟩)).tableItems
              md.tableName).find?
            (fun it => strictEq it.id (getPropD ec md.idPropertyName))
          = some ⟨getPropD ec md.idPropertyName, h.cells.length⟩ := by
        rw [hitems, find?_append_none _ _ _ hnone]
        simp [List.find?_cons, strictEq_refl_of_isPrim _ hprim]
      obtain ⟨hv, hrf2, hstable⟩ := ref_found_value_stable
        ⟨h.cells ++ [ec, ec, ec, ec]⟩
        ((st.ensureTable md.tableName).pushItem md.tableName
          ⟨getPropD ec md.idPropertyName, h.cells.length⟩)
        (getPropD ec md.idPropertyName) md h.cells.length ec hfind
        (RHeap.get_append_at h.cells _ _) (by simp)
      refine ⟨hv, fun p w => hstable p w (h.cells.length + 3) (by omega),
        fun p w rf hrf' => ?_⟩
      have heq2 := hrf'.symm.trans hrf2
      have hrfval : rf = h.cells.length + 6 := by
        simp at heq2
        omega
      exact hstable p w rf (by omega)
  · simp [hT] at hins

/-- Claim C2: for a relation-free entity, insert followed by findById on the
returned copy's id yields a value equal to that copy in every property (hence
in all declared fields, with matching ids), equal to the input on all non-id
fields, and identical to the input when the id was pre-set.  Moreover, at the
reference level, the copies handed out by insert and findById are independent
of the stored object: mutating either returned object (any property write)
does not change the value a subsequent findById hands out. -/
theorem C2_insert_findById_roundtrip :
    (∀ (seq : Nat) (st : MemoryPersister) (e : Value) (fs : List (String × Value))
       (md : EntityMetadata) (seq' : Nat) (st' : MemoryPersister) (v : Value),
      md.oneToManyRelations = [] → md.manyToOneRelations = [] →
      e = .vObj fs →
      (hasProp e md.idPropertyName = true →
        truthy (getPropD e md.idPropertyName) = true →
        isPrim (getPropD e md.idPropertyName) = true) →
      MemoryPersister.insert seq st [e] md = (seq', st', .ok v) →
      st'.findById (getPropD v md.idPropertyName) md = .ok (some v)
      ∧ (∀ f ∈ md.fields, f.propertyName ≠ md.idPropertyName →
          getProp v f.propertyName = getProp e f.propertyName)
      ∧ (hasProp e md.idPropertyName = true →
          truthy (getPropD e md.idPropertyName) = true → v = e))
    ∧ (∀ (seq : Nat) (h : RHeap) (st : RefPersister) (r : Nat)
       (fs : List (String × Value)) (md : EntityMetadata) (seq1 : Nat) (h1 : RHeap)
       (st1 : RefPersister) (rIns : Nat),
      md.oneToManyRelations = [] → md.manyToOneRelations = [] →
      h.get r = .vObj fs →
      (hasProp (h.get r) md.idPropertyName = true →
        truthy (getPropD (h.get r) md.idPropertyName) = true →
        isPrim (getPropD (h.get r) md.idPropertyName) = true) →
      RefPersister.insert seq h st r md = (seq1, h1, st1, .ok rIns) →
      RefPersister.findByIdVal h1 st1 (getPropD (h1.get rIns) md.idPropertyName) md
          = some (h1.get rIns)
      ∧ (∀ p w, RefPersister.findByIdVal
            (((RefPersister.findById h1 st1 (getPropD (h1.get rIns) md.idPropertyName)
              md).1).mutateProp rIns p w)
            st1 (getPropD (h1.get rIns) md.idPropertyName) md = some (h1.get rIns))
      ∧ (∀ p w rf,
          (RefPersister.findById h1 st1 (getPropD (h1.get rIns) md.idPropertyName)
            md).2 = some rf →
          RefPersister.findByIdVal
            (((RefPersister.findById h1 st1 (getPropD (h1.get rIns) md.idPropertyName)
              md).1).mutateProp rf p w)
            st1 (getPropD (h1.get rIns) md.idPropertyName) md = some (h1.get rIns))) :=
  ⟨fun seq st e fs md seq' st' v h1 h2 hobj hpre h =>
    insert_roundtrip_value seq st e fs md seq' st' v h1 h2 hobj hpre h,
   fun seq h st r fs md seq1 h1 st1 rIns hrel1 hrel2 hobj hpre hins =>
    ref_copy_independence seq h st r fs md seq1 h1 st1 rIns hrel1 hrel2 hobj hpre hins⟩

/-- Witness for C2 at a concrete input: inserting `ePreset` into the empty
persister, then reading it back; at the reference level, mutating the copy
returned by insert before reading again. -/
theorem C2_insert_findById_roundtrip_witness :
    MemoryPersister.findById stC2after (getPropD ePreset "id") mdPlain
        = .ok (some ePreset)
    ∧ RefPersister.findByIdVal hC2 stRC2 (getPropD (hC2.get 4) "id") mdPlain
        = some (hC2.get 4)
    ∧ RefPersister.findByIdVal
        (((RefPersister.findById hC2 stRC2 (getPropD (hC2.get 4) "id")
          mdPlain).1).mutateProp 4 "name" (.vNum 99))
        stRC2 (getPropD (hC2.get 4) "id") mdPlain = some (hC2.get 4) :=
  ⟨(C2_insert_findById_roundtrip.1 0 stEmpty ePreset
      [("id", .vStr "a1"), ("name", .vStr "alpha")] mdPlain 0 stC2after ePreset
      rfl rfl rfl (fun _ _ => by decide) rfl).1,
   (C2_insert_findById_roundtrip.2 0 ⟨[ePreset]⟩ ⟨.STRING, []⟩ 0
      [("id", .vStr "a1"), ("name", .vStr "alpha")] mdPlain 0 hC2 stRC2 4
      rfl rfl rfl (fun _ _ => by decide) rfl).1,
   (C2_insert_findById_roundtrip.2 0 ⟨[ePreset]⟩ ⟨.STRING, []⟩ 0
      [("id", .vStr "a1"), ("name", .vStr "alpha")] mdPlain 0 hC2 stRC2 4
      rfl rfl rfl (fun _ _ => by decide) rfl).2.1 "name" (.vNum 99)⟩

theorem idsDistinct_tableItems (st : MemoryPersister) (hinv : st.IdsInvariant)
    (t : String) : IdsDistinct ((st.tableItems t).map (fun it => it.id)) := by
  simp only [MemoryPersister.tableItems, MemoryPersister.lookupTable]
  cases hf : st.data.find? (fun kv => kv.1 == t) with
  | none => simp [createMemoryTable, IdsDistinct]
  | some kv =>
    simp only [Option.map_some', Option.getD_some]
    exact hinv kv (List.mem_of_find?_eq_some hf)

theorem insertNewItems_ok_distinct (ty : MemoryIdType) (p : String) :
    ∀ (entities : List Value) (seq : Nat) (allIds : List Value) (seq' : Nat)
      (newItems : List MemoryItem),
      insertNewItems ty p seq allIds entities = (seq', .ok newItems) →
      IdsDistinct allIds →
      IdsDistinct (allIds ++ newItems.map (fun it => it.id)) := by
  intro entities
  induction entities with
  | nil =>
    intro seq allIds seq' newItems h hdist
    simp only [insertNewItems, Prod.mk.injEq, Except.ok.injEq] at h
    rw [← h.2]
    simpa using hdist
  | cons item rest ih =>
    intro seq allIds seq' newItems h hdist
    simp only [insertNewItems] at h
    by_cases h1 : truthy (getPropD (insertAssign ty p seq item).2 p)
    · simp only [h1, Bool.not_true, Bool.false_eq_true, if_false] at h
      by_cases h2 : allIds.any (fun x => strictEq x (getPropD (insertAssign ty p seq item).2 p))
      · simp [h2] at h
      · simp only [h2, Bool.false_eq_true, if_false] at h
        cases hrec : insertNewItems ty p (insertAssign ty p seq item).1
            (allIds ++ [getPropD (insertAssign ty p seq item).2 p]) rest with
        | mk seq2 res =>
          rw [hrec] at h
          cases res with
          | error e => simp at h
          | ok items2 =>
            simp only [Prod.mk.injEq, Except.ok.injEq] at h
            have hdist1 : IdsDistinct (allIds ++ [getPropD (insertAssign ty p seq item).2 p]) := by
              rw [IdsDistinct, List.pairwise_append]
              refine ⟨hdist, List.pairwise_singleton _ _, fun a ha b hb => ?_⟩
              have hb' : b = getPropD (insertAssign ty p seq item).2 p := by
                simpa using hb
              subst hb'
              have := List.any_eq_false.mp (by simpa using h2) a ha
              simpa using this
            have := ih (insertAssign ty p seq item).1
              (allIds ++ [getPropD (insertAssign ty p seq item).2 p]) seq2 items2 hrec hdist1
            rw [← h.2]
            simpa [List.append_assoc] using this
    · simp [h1] at h

theorem ensureTable_invariant (st : MemoryPersister) (t : String)
    (hinv : st.IdsInvariant) : (st.ensureTable t).IdsInvariant := by
  simp only [MemoryPersister.ensureTable]
  by_cases h : st.hasTable t
  · rw [if_pos h]
    exact hinv
  · rw [if_neg h]
    intro kv hkv
    rcases List.mem_append.mp hkv with hmem | hmem
    · exact hinv kv hmem
    · simp only [List.mem_singleton] at hmem
      subst hmem
      simp [IdsDistinct, createMemoryTable]

theorem setTableItems_invariant (st : MemoryPersister) (t : String)
    (items : List MemoryItem) (hinv : st.IdsInvariant)
    (hdist : IdsDistinct (items.map (fun it => it.id))) :
    (st.setTableItems t items).IdsInvariant := by
  simp only [MemoryPersister.setTableItems]
  by_cases h : st.hasTable t
  · rw [if_pos h]
    intro kv hkv
    obtain ⟨kv0, hkv0, hkveq⟩ := List.mem_map.mp hkv
    by_cases hk : kv0.1 == t
    · rw [← hkveq]
      simp only [hk, if_true]
      exact hdist
    · rw [← hkveq]
      simp only [hk, Bool.false_eq_true, if_false]
      exact hinv kv0 hkv0
  · rw [if_neg h]
    intro kv hkv
    rcases List.mem_append.mp hkv with hmem | hmem
    · exact hinv kv hmem
    · simp only [List.mem_singleton] at hmem
      subst hmem
      exact hdist

theorem replaceFirstItem_map_id (l : List MemoryItem) (id : Value) (v : Value) :
    (replaceFirstItem l id v).map (fun it => it.id) = l.map (fun it => it.id) := by
  induction l with
  | nil => rfl
  | cons it rest ih =>
    simp only [replaceFirstItem]
    by_cases h : strictEq it.id id
    · simp [h, createMemoryItem]
    · simp [h, ih]

theorem insert_state_ok (seq : Nat) (st : MemoryPersister) (entities : List Value)
    (md : EntityMetadata) (seq2 : Nat) (newItems : List MemoryItem)
    (hrec : insertNewItems st.idType md.idPropertyName seq
      ((st.tableItems md.tableName).map (fun it => it.id)) entities
      = (seq2, .ok newItems)) :
    (MemoryPersister.insert seq st entities md).2.1
      = (st.ensureTable md.tableName).setTableItems md.tableName
          (st.tableItems md.tableName ++ newItems) := by
  simp only [MemoryPersister.insert, idType_ensureTable, tableItems_ensureTable]
  rw [hrec]
  cases hh : newItems.head? with
  | none => simp [hh]
  | some fi =>
    cases hp : ((st.ensureTable md.tableName).setTableItems md.tableName
        (st.tableItems md.tableName ++ newItems)).populateRelations fi.value md with
    | ok v => simp [hh, hp]
    | error e => simp [hh, hp]

theorem insert_state_err (seq : Nat) (st : MemoryPersister) (entities : List Value)
    (md : EntityMetadata) (seq2 : Nat) (e : String)
    (hrec : insertNewItems st.idType md.idPropertyName seq
      ((st.tableItems md.tableName).map (fun it => it.id)) entities
      = (seq2, .error e)) :
    (MemoryPersister.insert seq st entities md).2.1 = st.ensureTable md.tableName := by
  simp only [MemoryPersister.insert, idType_ensureTable, tableItems_ensureTable]
  rw [hrec]

theorem update_state (st : MemoryPersister) (e : Value) (md : EntityMetadata)
    (hprop : md.idPropertyName ≠ "") (hhas : hasProp e md.idPropertyName = true)
    (htr : truthy (getPropD e md.idPropertyName) = true) :
    (st.update e md).1
      = (st.ensureTable md.tableName).setTableItems md.tableName
          (if ((st.tableItems md.tableName).find?
              (fun it => strictEq it.id (getPropD e md.idPropertyName))).isSome then
            replaceFirstItem (st.tableItems md.tableName)
              (getPropD e md.idPropertyName) e
          else st.tableItems md.tableName
            ++ [createMemoryItem (getPropD e md.idPropertyName) e]) := by
  have hbe : (md.idPropertyName == "") = false := beq_eq_false_iff_ne.mpr hprop
  simp only [MemoryPersister.update, tableItems_ensureTable, hbe, hhas, htr,
    Bool.not_false, Bool.and_self, Bool.not_true, Bool.false_eq_true, if_false]

theorem find?_filter_key_ne {β : Type} (l : List (String × β)) (target t : String)
    (h : t ≠ target) :
    (l.filter (fun kv => !(kv.1 == target))).find? (fun kv => kv.1 == t)
      = l.find? (fun kv => kv.1 == t) := by
  induction l with
  | nil => rfl
  | cons kv rest ih =>
    by_cases hk : kv.1 == t
    · have hkt : (kv.1 == target) = false := by
        refine beq_eq_false_iff_ne.mpr (fun he => ?_)
        exact h ((eq_of_beq hk).symm.trans he)
      simp [List.filter_cons, hkt, List.find?_cons, hk]
    · by_cases hk2 : kv.1 == target
      · simp only [List.filter_cons, hk2, Bool.not_true, Bool.false_eq_true, if_false]
        rw [ih]
        simp [List.find?_cons, hk]
      · simp only [List.filter_cons, hk2, Bool.not_false, if_true]
        simp only [List.find?_cons, hk]
        exact ih

/-- Claim C9: pairwise distinctness of the ids within every table is an
invariant of every mutating persister operation; insert rejects an id already
present; update replaces the first stored item in place when the id is present
and appends exactly one new item when it is not; deletions only remove
items. -/
theorem C9_table_ids_invariant (st : MemoryPersister) (hinv : st.IdsInvariant) :
    (∀ seq entities md, ((MemoryPersister.insert seq st entities md).2.1).IdsInvariant)
    ∧ (∀ e md, ((st.update e md).1).IdsInvariant)
    ∧ (∀ md, (st.deleteAll md).IdsInvariant)
    ∧ (∀ ids md, (st.deleteAllById ids md).IdsInvariant)
    ∧ (∀ p v md, (st.deleteAllByProperty p v md).IdsInvariant)
    ∧ (∀ id md, (st.deleteById id md).IdsInvariant)
    ∧ (∀ seq e md, hasProp e md.idPropertyName = true →
        truthy (getPropD e md.idPropertyName) = true →
        ((st.tableItems md.tableName).map (fun it => it.id)).any
          (fun x => strictEq x (getPropD e md.idPropertyName)) = true →
        ∃ err, (MemoryPersister.insert seq st [e] md).2.2 = .error err)
    ∧ (∀ e md, md.idPropertyName ≠ "" → hasProp e md.idPropertyName = true →
        truthy (getPropD e md.idPropertyName) = true →
        (((st.tableItems md.tableName).find?
            (fun it => strictEq it.id (getPropD e md.idPropertyName))).isSome = true →
          (st.update e md).1.tableItems md.tableName
            = replaceFirstItem (st.tableItems md.tableName)
                (getPropD e md.idPropertyName) e)
        ∧ (((st.tableItems md.tableName).find?
            (fun it => strictEq it.id (getPropD e md.idPropertyName))).isSome = false →
          (st.update e md).1.tableItems md.tableName
            = st.tableItems md.tableName
              ++ [createMemoryItem (getPropD e md.idPropertyName) e]))
    ∧ (∀ ids md t, List.Sublist ((st.deleteAllById ids md).tableItems t)
        (st.tableItems t))
    ∧ (∀ p v md t, List.Sublist ((st.deleteAllByProperty p v md).tableItems t)
        (st.tableItems t))
    ∧ (∀ md t, List.Sublist ((st.deleteAll md).tableItems t)
        (st.tableItems t)) := by
  have hfilter : ∀ (l : List MemoryItem) (p : MemoryItem → Bool),
      IdsDistinct (l.map (fun it => it.id)) →
      IdsDistinct ((l.filter p).map (fun it => it.id)) :=
    fun l p h => List.Pairwise.sublist (List.Sublist.map _ (List.filter_sublist l)) h
  refine ⟨?_, ?_, ?_, ?_, ?_, ?_, ?_, ?_, ?_, ?_, ?_⟩
  · intro seq entities md
    cases hrec : insertNewItems st.idType md.idPropertyName seq
        ((st.tableItems md.tableName).map (fun it => it.id)) entities with
    | mk seq2 res =>
      cases res with
      | error e =>
        rw [insert_state_err seq st entities md seq2 e hrec]
        exact ensureTable_invariant st md.tableName hinv
      | ok newItems =>
        rw [insert_state_ok seq st entities md seq2 newItems hrec]
        apply setTableItems_invariant _ _ _ (ensureTable_invariant st md.tableName hinv)
        rw [List.map_append]
        exact insertNewItems_ok_distinct st.idType md.idPropertyName entities seq _
          seq2 newItems hrec (idsDistinct_tableItems st hinv md.tableName)
  · intro e md
    simp only [MemoryPersister.update, tableItems_ensureTable]
    by_cases hc1 : (!(!(md.idPropertyName == "") && hasProp e md.idPropertyName)) = true
    · simp only [hc1, if_true]
      exact ensureTable_invariant st md.tableName hinv
    · simp only [hc1, Bool.false_eq_true, if_false]
      by_cases hc2 : (!(truthy (getPropD e md.idPropertyName))) = true
      · simp only [hc2, if_true]
        exact ensureTable_invariant st md.tableName hinv
      · simp only [hc2, Bool.false_eq_true, if_false]
        apply setTableItems_invariant _ _ _ (ensureTable_invariant st md.tableName hinv)
        by_cases hf : ((st.tableItems md.tableName).find?
            (fun it => strictEq it.id (getPropD e md.idPropertyName))).isSome
        · simp only [hf, if_true]
          rw [replaceFirstItem_map_id]
          exact idsDistinct_tableItems st hinv md.tableName
        · simp only [hf, Bool.false_eq_true, if_false]
          rw [List.map_append]
          rw [IdsDistinct, List.pairwise_append]
          refine ⟨idsDistinct_tableItems st hinv md.tableName,
            List.pairwise_singleton _ _, fun a ha b hb => ?_⟩
          have hnone : (st.tableItems md.tableName).find?
              (fun it => strictEq it.id (getPropD e md.idPropertyName)) = none := by
            cases hff : (st.tableItems md.tableName).find?
                (fun it => strictEq it.id (getPropD e md.idPropertyName)) with
            | none => rfl
            | some it => rw [hff] at hf; simp at hf
          obtain ⟨it0, hit0, hfa⟩ := List.mem_map.mp ha
          have := List.find?_eq_none.mp hnone it0 hit0
          simp only [List.map_cons, List.map_nil, List.mem_singleton,
            createMemoryItem] at hb
          subst hb
          rw [← hfa]
          simpa using this
  · intro md
    simp only [MemoryPersister.deleteAll]
    by_cases h : st.hasTable md.tableName
    · rw [if_pos h]
      intro kv hkv
      exact hinv kv (List.mem_of_mem_filter hkv)
    · rw [if_neg h]
      exact hinv
  · intro ids md
    simp only [MemoryPersister.deleteAllById]
    by_cases h : st.hasTable md.tableName
    · rw [if_pos h]
      apply setTableItems_invariant _ _ _ hinv
      exact hfilter _ _ (idsDistinct_tableItems st hinv md.tableName)
    · rw [if_neg h]
      exact hinv
  · intro p v md
    simp only [MemoryPersister.deleteAllByProperty]
    by_cases h : st.hasTable md.tableName
    · rw [if_pos h]
      apply setTableItems_invariant _ _ _ hinv
      exact hfilter _ _ (idsDistinct_tableItems st hinv md.tableName)
    · rw [if_neg h]
      exact hinv
  · intro id md
    simp only [MemoryPersister.deleteById, MemoryPersister.deleteAllById]
    by_cases h : st.hasTable md.tableName
    · rw [if_pos h]
      apply setTableItems_invariant _ _ _ hinv
      exact hfilter _ _ (idsDistinct_tableItems st hinv md.tableName)
    · rw [if_neg h]
      exact hinv
  · intro seq e md hhas htr hany
    have ha : insertAssign st.idType md.idPropertyName seq e = (seq, e) := by
      simp [insertAssign, hhas, htr]
    simp only [MemoryPersister.insert, idType_ensureTable, tableItems_ensureTable,
      insertNewItems_singleton, ha, htr, hany, Bool.not_true, Bool.false_eq_true,
      if_false, if_true]
    exact ⟨_, rfl⟩
  · intro e md hprop hhas htr
    rw [update_state st e md hprop hhas htr]
    constructor
    · intro hf
      rw [hf]
      simp only [if_true]
      rw [tableItems_setTableItems_self]
    · intro hf
      rw [hf]
      simp only [Bool.false_eq_true, if_false]
      rw [tableItems_setTableItems_self]
  · intro ids md t
    simp only [MemoryPersister.deleteAllById]
    by_cases h : st.hasTable md.tableName
    · rw [if_pos h]
      by_cases ht : t = md.tableName
      · subst ht
        rw [tableItems_setTableItems_self]
        exact List.filter_sublist _
      · rw [tableItems_setTableItems_ne _ _ _ _ ht]
    · rw [if_neg h]
  · intro p v md t
    simp only [MemoryPersister.deleteAllByProperty]
    by_cases h : st.hasTable md.tableName
    · rw [if_pos h]
      by_cases ht : t = md.tableName
      · subst ht
        rw [tableItems_setTableItems_self]
        exact List.filter_sublist _
      · rw [tableItems_setTableItems_ne _ _ _ _ ht]
    · rw [if_neg h]
  · intro md t
    simp only [MemoryPersister.deleteAll]
    by_cases h : st.hasTable md.tableName
    · rw [if_pos h]
      by_cases ht : t = md.tableName
      · subst ht
        have hzero : ({ st with
            data := st.data.filter (fun kv => !(kv.1 == md.tableName)) }
              : MemoryPersister).tableItems md.tableName = [] := by
          simp only [MemoryPersister.tableItems, MemoryPersister.lookupTable]
          have hnone : (st.data.filter
              (fun kv => !(kv.1 == md.tableName))).find?
                (fun kv => kv.1 == md.tableName) = none := by
            refine List.find?_eq_none.mpr (fun kv hkv => ?_)
            have := List.of_mem_filter hkv
            simpa using this
          rw [hnone]
          rfl
        rw [hzero]
        exact List.nil_sublist _
      · have hsame : ({ st with
            data := st.data.filter (fun kv => !(kv.1 == md.tableName)) }
              : MemoryPersister).tableItems t = st.tableItems t := by
          simp only [MemoryPersister.tableItems, MemoryPersister.lookupTable]
          rw [find?_filter_key_ne st.data md.tableName t ht]
        rw [hsame]
    · rw [if_neg h]

/-- Witness for C9 at a concrete input: the invariant holds for `stOne` and is
preserved by inserting a fresh entity; an insert of a duplicate id errors; an
update of a new id appends. -/
theorem C9_table_ids_invariant_witness :
    ((MemoryPersister.insert 0 stOne [ePlain] mdPlain).2.1).IdsInvariant
    ∧ (∃ err, (MemoryPersister.insert 0 stOne [ePreset] mdPlain).2.2 = .error err) :=
  ⟨(C9_table_ids_invariant stOne (by decide)).1 0 [ePlain] mdPlain,
   (C9_table_ids_invariant stOne (by decide)).2.2.2.2.2.2.1 0 ePreset mdPlain
     (by decide) (by decide) (by decide)⟩

/-- Counterexample to C5 as stated: with both missing-field situations present
(the one-to-many relation's `mappedBy` (`kidRef`) matches no field of the
mapped table's metadata, and the many-to-one relation's `propertyName`
(`owner`) matches no own field), relation population returns the entity
unchanged with no error — the source's `if (joinColumn)` has no else branch,
so the relation is silently skipped rather than raised as a hard error. -/
theorem C5_counterexample :
    mdB.fields.find? (fun f => f.propertyName == "kidRef") = none
    ∧ mdA.fields.find? (fun f => f.propertyName == "owner") = none
    ∧ MemoryPersister.populateRelations stC5 eA mdA = .ok eA :=
  ⟨rfl, rfl, rfl⟩

/-- Claim C5 amended: when the field the relation requires is missing — the
mapped table's metadata has no field named `mappedBy` (one-to-many), or the
entity's own metadata has no field named `propertyName` (many-to-one) — the
population step silently skips the relation and returns the entity unchanged;
no error is raised (errors are raised only for an empty `mappedTable` or
`mappedBy` and for unregistered metadata). -/
theorem C5_missing_field_skipped :
    (∀ (st : MemoryPersister) (md : EntityMetadata) (entityId : Option Value)
       (entity : Value) (rel : EntityRelationOneToMany) (m : EntityMetadata),
      rel.mappedTable ≠ "" → rel.mappedBy ≠ "" →
      st.getMetadataByTable rel.mappedTable = some m →
      m.fields.find? (fun f => f.propertyName == rel.mappedBy) = none →
      oneToManyStep st md entityId entity rel = .ok entity)
    ∧ (∀ (st : MemoryPersister) (md : EntityMetadata) (entity : Value)
       (rel : EntityRelationManyToOne),
      md.fields.find? (fun f => f.propertyName == rel.propertyName) = none →
      manyToOneStep st md entity rel = .ok entity) := by
  constructor
  · intro st md entityId entity rel m ht hb hm hf
    have ht' : (rel.mappedTable == "") = false := beq_eq_false_iff_ne.mpr ht
    have hb' : (rel.mappedBy == "") = false := beq_eq_false_iff_ne.mpr hb
    simp only [oneToManyStep, ht', hb', Bool.not_false, Bool.and_self, if_true, hm, hf]
  · intro st md entity rel hf
    simp only [manyToOneStep, hf]

/-- Witness for the amended C5 at a concrete input: both skip situations of
the `stC5` fixture. -/
theorem C5_missing_field_skipped_witness :
    oneToManyStep stC5 mdA (some (.vStr "a1")) eA ⟨"kids", "kidRef", "bs"⟩ = .ok eA
    ∧ manyToOneStep stC5 mdA eA ⟨"owner", "bs"⟩ = .ok eA :=
  ⟨C5_missing_field_skipped.1 stC5 mdA (some (.vStr "a1")) eA ⟨"kids", "kidRef", "bs"⟩
      mdB (by decide) (by decide) rfl rfl,
   C5_missing_field_skipped.2 stC5 mdA eA ⟨"owner", "bs"⟩ rfl⟩

/-- Counterexample to C6 as stated: resolving the child's `parent` relation
hands back the stored parent with its own many-to-one relation `gp` left as
the unresolved placeholder — not the fully populated related entity the claim
promises (`parentFull`, which full population of the parent produces and which
differs from the stored parent). -/
theorem C6_counterexample :
    MemoryPersister.populateManyToOneRelations stC6 eChild mdChild
        = .ok (setProp eChild "parent" parentStored)
    ∧ getProp (setProp eChild "parent" parentStored) "parent" = some parentStored
    ∧ MemoryPersister.populateRelations stC6 parentStored mdParent = .ok parentFull
    ∧ parentStored ≠ parentFull := by
  refine ⟨rfl, rfl, rfl, ?_⟩
  simp [parentStored, parentFull, grandStored]

/-- Claim C6 amended: for a many-to-one relation whose placeholder carries the
id of a stored row in the mapped table, population replaces the relation
property with the stored related entity after populating only its one-to-many
relations (the related entity's own many-to-one relations are left as stored);
when no stored item in the mapped table has that id, a resolution error is
raised. -/
theorem C6_many_to_one_resolution :
    ∀ (st : MemoryPersister) (md : EntityMetadata) (entity : Value)
      (rel : EntityRelationManyToOne) (jc : EntityField) (m : EntityMetadata)
      (jp : String),
    md.fields.find? (fun f => f.propertyName == rel.propertyName) = some jc →
    rel.mappedTable ≠ "" →
    st.getMetadataByTable rel.mappedTable = some m →
    truthy (getPropD entity rel.propertyName) = true →
    getPropertyName jc.columnName m.fields = some jp →
    hasProp (getPropD entity rel.propertyName) jp = true →
    truthy (getPropD (getPropD entity rel.propertyName) jp) = true →
    ((∀ item, (st.tableItems m.tableName).find?
        (fun it => strictEq it.id (getPropD (getPropD entity rel.propertyName) jp))
          = some item →
      manyToOneStep st md entity rel
        = (st.populateOneToManyRelations item.value m).map
            (fun populated => setProp entity rel.propertyName populated))
     ∧ ((st.tableItems m.tableName).find?
        (fun it => strictEq it.id (getPropD (getPropD entity rel.propertyName) jp))
          = none →
      manyToOneStep st md entity rel = .error "Could not find related entity by id")) := by
  intro st md entity rel jc m jp hjc ht hm htr hjp hhasjp htrid
  have ht' : (rel.mappedTable == "") = false := beq_eq_false_iff_ne.mpr ht
  constructor
  · intro item hfind
    simp only [manyToOneStep, hjc, ht', Bool.false_eq_true, if_false, hm, htr,
      Bool.not_true, hjp, hhasjp, if_true, htrid, hfind]
    cases hp : st.populateOneToManyRelations item.value m with
    | ok populated => simp [hp, Except.map]
    | error e => simp [hp, Except.map]
  · intro hfind
    simp only [manyToOneStep, hjc, ht', Bool.false_eq_true, if_false, hm, htr,
      Bool.not_true, hjp, hhasjp, if_true, htrid, hfind]

/-- Witness for the amended C6 at a concrete input: resolving the `stC6`
child's `parent` relation, found branch. -/
theorem C6_many_to_one_resolution_witness :
    manyToOneStep stC6 mdChild eChild ⟨"parent", "parents"⟩
      = (stC6.populateOneToManyRelations parentStored mdParent).map
          (fun populated => setProp eChild "parent" populated) :=
  (C6_many_to_one_resolution stC6 mdChild eChild ⟨"parent", "parents"⟩
    ⟨"parent", "pid"⟩ mdParent "pid" rfl (by decide) rfl rfl rfl rfl rfl).1
    ⟨.vStr "p1", parentStored⟩ rfl

theorem applyOps_state {α : Type} :
    ∀ (ops : List (BuilderOp α)) (b : PgSelectQueryBuilder α),
      (applyOps b ops).fieldValues = b.fieldValues ++ (ops.map opFieldValues).flatten
      ∧ (applyOps b ops).leftJoinValues = b.leftJoinValues
      ∧ (applyOps b ops).whereB = opsWhere b.whereB ops := by
  intro ops
  induction ops with
  | nil => intro b; simp [applyOps, opsWhere]
  | cons op rest ih =>
    intro b
    obtain ⟨h1, h2, h3⟩ := ih (applyOp b op)
    cases op with
    | setTablePfx p =>
      simp only [applyOps, List.map_cons, List.flatten_cons, opFieldValues]
      refine ⟨by rw [h1]; rfl, by rw [h2]; rfl, by rw [h3]; rfl⟩
    | setFromTable t =>
      simp only [applyOps, List.map_cons, List.flatten_cons, opFieldValues]
      refine ⟨by rw [h1]; rfl, by rw [h2]; rfl, by rw [h3]; rfl⟩
    | setGroupByColumn c =>
      simp only [applyOps, List.map_cons, List.flatten_cons, opFieldValues]
      refine ⟨by rw [h1]; rfl, by rw [h2]; rfl, by rw [h3]; rfl⟩
    | setWhereFromQueryBuilder w =>
      simp only [applyOps, List.map_cons, List.flatten_cons, opFieldValues]
      refine ⟨by rw [h1]; rfl, by rw [h2]; rfl, by rw [h3]; rfl⟩
    | includeAllColumnsFromTable t =>
      simp only [applyOps, List.map_cons, List.flatten_cons, opFieldValues]
      refine ⟨by rw [h1]; rfl, by rw [h2]; rfl, by rw [h3]; rfl⟩
    | includeColumnFromQueryBuilder sub a =>
      simp only [applyOps, List.map_cons, List.flatten_cons, opFieldValues]
      refine ⟨?_, by rw [h2]; rfl, by rw [h3]; rfl⟩
      rw [h1]
      simp [applyOp, PgSelectQueryBuilder.includeColumnFromQueryBuilder,
        List.append_assoc]
    | leftJoinTable ft fc srcT srcC =>
      simp only [applyOps, List.map_cons, List.flatten_cons, opFieldValues]
      refine ⟨by rw [h1]; rfl, by rw [h2]; rfl, by rw [h3]; rfl⟩

/-- Claim C4: over any sequence of builder calls, the built value list is
exactly the concatenation of the value factories contributed by the field
includes (in call order), then the join value factories (always the empty
list, since no builder call pushes one), then the attached predicate builder's
factories; `getQueryValueFactories` returns the same list; for the spec's
canonical shape (two field expressions, one left join, one predicate) the
rendered text is one `SELECT`, one `FROM`, one `LEFT JOIN` and one `WHERE`, in
that left-to-right order; and in general the rendered text is the `SELECT`
clause, then the `FROM`, join, `WHERE` and `GROUP BY` segments in that
left-to-right order, each segment empty exactly when its underlying state is
unset. -/
theorem C4_build_values_order :
    (∀ (α : Type) (ops : List (BuilderOp α)),
      (applyOps (PgSelectQueryBuilder.new α) ops).buildQueryValues
        = (ops.map opFieldValues).flatten
          ++ (applyOps (PgSelectQueryBuilder.new α) ops).leftJoinValues
          ++ (match opsWhere none ops with
              | some w => w.valueFactories
              | none => [])
      ∧ (applyOps (PgSelectQueryBuilder.new α) ops).getQueryValueFactories
        = (applyOps (PgSelectQueryBuilder.new α) ops).buildQueryValues
      ∧ (applyOps (PgSelectQueryBuilder.new α) ops).leftJoinValues = [])
    ∧ (∀ (α : Type) (t1 a t ft fc srcT srcC : String) (sub w : QueryBuilderModel α),
      sub.queryString ≠ "" → t ≠ "" →
      (applyOps (PgSelectQueryBuilder.new α)
        [.includeAllColumnsFromTable t1, .includeColumnFromQueryBuilder sub a,
         .setFromTable t, .leftJoinTable ft fc srcT srcC,
         .setWhereFromQueryBuilder w]).build
      = .ok ("SELECT " ++ (quoteTableName t1 ++ ".*" ++ (", "
          ++ (sub.queryString ++ " AS " ++ quoteColumnName a)))
          ++ " FROM " ++ quoteTableName t
          ++ " " ++ mkLeftJoin ft fc srcT srcC ++ " WHERE " ++ w.queryString,
         sub.valueFactories ++ w.valueFactories))
    ∧ (∀ (α : Type) (b : PgSelectQueryBuilder α) (fq : List String),
      exceptSeq b.fieldQueries = .ok fq →
      (optTruthy b.mainIdColumnName = true → optTruthy b.mainTableName = true) →
      b.buildQueryString = .ok (
        "SELECT " ++ String.intercalate ", " fq
        ++ (if optTruthy b.mainTableName then
              " FROM " ++ quoteTableName (b.mainTableName.getD "") else "")
        ++ (if b.leftJoinQueries.length != 0 then
              " " ++ String.intercalate " " b.leftJoinQueries else "")
        ++ (match b.whereB with
            | some w => " WHERE " ++ w.queryString
            | none => "")
        ++ (if optTruthy b.mainIdColumnName then
              " GROUP BY " ++ quoteTableAndColumn (b.mainTableName.getD "")
                (b.mainIdColumnName.getD "") else ""))) := by
  refine ⟨?_, ?_, ?_⟩
  · intro α ops
    obtain ⟨h1, h2, h3⟩ := applyOps_state ops (PgSelectQueryBuilder.new α)
    have hjoin : (applyOps (PgSelectQueryBuilder.new α) ops).leftJoinValues = [] := by
      rw [h2]; rfl
    refine ⟨?_, ?_, hjoin⟩
    · simp only [PgSelectQueryBuilder.buildQueryValues, h1, h3, hjoin]
      simp [PgSelectQueryBuilder.new]
    · simp only [PgSelectQueryBuilder.getQueryValueFactories,
        PgSelectQueryBuilder.buildQueryValues]
  · intro α t1 a t ft fc srcT srcC sub w hsub ht
    have hsub' : (sub.queryString == "") = false := beq_eq_false_iff_ne.mpr hsub
    have ht' : (t == "") = false := beq_eq_false_iff_ne.mpr ht
    simp only [applyOps, applyOp, PgSelectQueryBuilder.new,
      PgSelectQueryBuilder.includeAllColumnsFromTable,
      PgSelectQueryBuilder.includeColumnFromQueryBuilder,
      PgSelectQueryBuilder.setFromTable, PgSelectQueryBuilder.leftJoinTable,
      PgSelectQueryBuilder.setWhereFromQueryBuilder, List.nil_append,
      List.append_nil]
    simp only [PgSelectQueryBuilder.build, PgSelectQueryBuilder.buildQueryString,
      PgSelectQueryBuilder.buildQueryValues, renderSubColumn, hsub',
      Bool.false_eq_true, if_false, exceptSeq, optTruthy, ht', Bool.not_false,
      if_true, Option.getD_some, List.length_cons, List.length_nil]
    simp only [String.intercalate, String.intercalate.go]
    simp [← String.append_assoc]
  · intro α b fq hseq himp
    simp only [PgSelectQueryBuilder.buildQueryString, hseq]
    by_cases hg : optTruthy b.mainIdColumnName
    · have htab : optTruthy b.mainTableName = true := himp hg
      by_cases hj : b.leftJoinQueries.length != 0 <;> cases hw : b.whereB <;>
        simp [hg, htab, hj, hw, String.append_assoc]
    · by_cases htab : optTruthy b.mainTableName <;>
        by_cases hj : b.leftJoinQueries.length != 0 <;> cases hw : b.whereB <;>
          simp [hg, htab, hj, hw, String.append_assoc]

theorem exceptSeq_append_error :
    ∀ (l : List (Except String String)) (e : String),
      ∃ e2, exceptSeq (l ++ [.error e]) = .error e2 := by
  intro l e
  induction l with
  | nil => exact ⟨e, rfl⟩
  | cons x rest ih =>
    cases x with
    | error e0 => exact ⟨e0, rfl⟩
    | ok s =>
      obtain ⟨e2, he2⟩ := ih
      refine ⟨e2, ?_⟩
      simp only [List.cons_append, exceptSeq, List.append_eq, he2]

/-- Counterexample to C7 as stated: embedding a sub-builder that renders the
empty string while owning one value factory does append that factory to the
enclosing builder's field-value list — the claim's "adds no value factories"
is false (and no error is raised at call time; the failure is deferred to
rendering). -/
theorem C7_counterexample :
    bC7.fieldValues = [7] ∧ ([7] : List Nat) ≠ [] :=
  ⟨rfl, by simp⟩

/-- Claim C7 amended: `includeColumnFromQueryBuilder` always appends the
sub-builder's value factories, in order, to the enclosing field-value list and
pushes a deferred column renderer; the call itself never raises.  When the
sub-builder renders the empty string the composition error surfaces later,
when `buildQueryString` runs the deferred renderer; when it renders a
non-empty string the renderer produces the aliased sub-select column. -/
theorem C7_include_column_appends :
    ∀ (α : Type) (b : PgSelectQueryBuilder α) (sub : QueryBuilderModel α) (a : String),
      (b.includeColumnFromQueryBuilder sub a).fieldValues
          = b.fieldValues ++ sub.valueFactories
      ∧ (b.includeColumnFromQueryBuilder sub a).fieldQueries
          = b.fieldQueries ++ [renderSubColumn sub a]
      ∧ (sub.queryString = "" →
          ∃ e, (b.includeColumnFromQueryBuilder sub a).buildQueryString = .error e)
      ∧ (sub.queryString ≠ "" →
          renderSubColumn sub a = .ok (sub.queryString ++ " AS " ++ quoteColumnName a)) := by
  intro α b sub a
  refine ⟨rfl, rfl, ?_, ?_⟩
  · intro hempty
    have hr : renderSubColumn sub a = .error "Query builder failed to create query string" := by
      simp [renderSubColumn, hempty]
    obtain ⟨e2, he2⟩ := exceptSeq_append_error b.fieldQueries
      "Query builder failed to create query string"
    refine ⟨e2, ?_⟩
    have hfq : (b.includeColumnFromQueryBuilder sub a).fieldQueries
        = b.fieldQueries ++ [.error "Query builder failed to create query string"] := by
      simp [PgSelectQueryBuilder.includeColumnFromQueryBuilder, hr]
    simp only [PgSelectQueryBuilder.buildQueryString, hfq, he2]
  · intro hne
    simp [renderSubColumn, beq_eq_false_iff_ne.mpr hne]

/-- Witness for the amended C7 at a concrete input: the `subEmpty` fixture. -/
theorem C7_include_column_appends_witness :
    bC7.fieldValues = ([] : List Nat) ++ subEmpty.valueFactories
    ∧ (∃ e, bC7.buildQueryString = .error e) :=
  ⟨(C7_include_column_appends Nat (PgSelectQueryBuilder.new Nat) subEmpty "a").1,
   (C7_include_column_appends Nat (PgSelectQueryBuilder.new Nat) subEmpty "a").2.2.1 rfl⟩

/-- Counterexample to C8 as stated: with the table prefix `x_` set, the
rendered `GROUP BY` clause references the raw from-table name `"t"`, not the
complete (prefix-qualified) table `"x_t"` that `getCompleteFromTable`
returns. -/
theorem C8_counterexample :
    bC8.buildQueryString = .ok "SELECT \"t\".* FROM \"t\" GROUP BY \"t\".\"c\""
    ∧ bC8.getCompleteFromTable = .ok "x_t"
    ∧ quoteTableAndColumn "x_t" "c" = "\"x_t\".\"c\""
    ∧ ("SELECT \"t\".* FROM \"t\" GROUP BY \"t\".\"c\"" : String)
        ≠ "SELECT \"t\".* FROM \"t\" GROUP BY \"x_t\".\"c\"" := by
  refine ⟨rfl, rfl, rfl, by decide⟩

/-- Claim C8 amended: `setGroupByColumn(name)` stores the column; at render
time, `build` fails when no from-table is set, and otherwise appends
`GROUP BY` over the raw (unprefixed) from-table name and the column. -/
theorem C8_group_by_renders_short_table :
    ∀ (α : Type) (b : PgSelectQueryBuilder α) (name : String), name ≠ "" →
      ((b.setGroupByColumn name).mainIdColumnName = some name)
      ∧ (optTruthy b.mainTableName = false →
          ∃ e, (b.setGroupByColumn name).buildQueryString = .error e)
      ∧ (∀ fq, optTruthy b.mainTableName = true →
          exceptSeq b.fieldQueries = .ok fq →
          ∃ q, (b.setGroupByColumn name).buildQueryString
            = .ok (q ++ " GROUP BY "
                ++ quoteTableAndColumn (b.mainTableName.getD "") name)) := by
  intro α b name hname
  have hname' : optTruthy (some name) = true := by
    simp [optTruthy, beq_eq_false_iff_ne.mpr hname]
  refine ⟨rfl, ?_, ?_⟩
  · intro htab
    simp only [PgSelectQueryBuilder.buildQueryString, PgSelectQueryBuilder.setGroupByColumn]
    cases hseq : exceptSeq b.fieldQueries with
    | error e => exact ⟨e, rfl⟩
    | ok fq =>
      simp only [hname', htab, Bool.not_false, if_true, Bool.false_eq_true, if_false]
      exact ⟨"No table initialized", rfl⟩
  · intro fq htab hseq
    simp only [PgSelectQueryBuilder.buildQueryString, PgSelectQueryBuilder.setGroupByColumn,
      hseq, hname', htab, Bool.not_true, Bool.false_eq_true, if_false, if_true]
    exact ⟨_, rfl⟩

/-- Witness for the amended C8 at a concrete input: the `bC8` fixture's state
before the group-by call. -/
theorem C8_group_by_renders_short_table_witness :
    ∃ q, ((((PgSelectQueryBuilder.new Nat).setTablePfx
        "x_").includeAllColumnsFromTable "t").setFromTable "t"
        |>.setGroupByColumn "c").buildQueryString
      = .ok (q ++ " GROUP BY " ++ quoteTableAndColumn "t" "c") :=
  (C8_group_by_renders_short_table Nat
    ((((PgSelectQueryBuilder.new Nat).setTablePfx "x_").includeAllColumnsFromTable
      "t").setFromTable "t") "c" (by decide)).2.2 ["\"t\".*"] rfl rfl

/-- Witness for C4 at a concrete input: the canonical two-fields, one-join,
one-predicate query, plus the general rendering segments for the same
builder. -/
theorem C4_build_values_order_witness :
    ((applyOps (PgSelectQueryBuilder.new Nat)
      [.includeAllColumnsFromTable "u",
       .includeColumnFromQueryBuilder ⟨"SELECT 1", [5]⟩ "c",
       .setFromTable "t", .leftJoinTable "j" "jc" "t" "tc",
       .setWhereFromQueryBuilder ⟨"x = 1", [7]⟩]).build
    = .ok ("SELECT " ++ (quoteTableName "u" ++ ".*" ++ (", "
        ++ ("SELECT 1" ++ " AS " ++ quoteColumnName "c")))
        ++ " FROM " ++ quoteTableName "t"
        ++ " " ++ mkLeftJoin "j" "jc" "t" "tc" ++ " WHERE " ++ "x = 1",
       ([5] : List Nat) ++ [7]))
    ∧ bC8.buildQueryString = .ok (
        "SELECT " ++ String.intercalate ", " ["\"t\".*"]
        ++ (if optTruthy bC8.mainTableName then
              " FROM " ++ quoteTableName (bC8.mainTableName.getD "") else "")
        ++ (if bC8.leftJoinQueries.length != 0 then
              " " ++ String.intercalate " " bC8.leftJoinQueries else "")
        ++ (match bC8.whereB with
            | some w => " WHERE " ++ w.queryString
            | none => "")
        ++ (if optTruthy bC8.mainIdColumnName then
              " GROUP BY " ++ quoteTableAndColumn (bC8.mainTableName.getD "")
                (bC8.mainIdColumnName.getD "") else "")) :=
  ⟨C4_build_values_order.2.1 Nat "u" "c" "t" "j" "jc" "t" "tc"
    ⟨"SELECT 1", [5]⟩ ⟨"x = 1", [7]⟩ (by decide) (by decide),
   C4_build_values_order.2.2 Nat bC8 ["\"t\".*"] rfl (fun _ => rfl)⟩
